import Mathlib

/-!
Verification of the gqbd SQL query-builder (github.com/donghquinn/gqbd).

The repository ships several coexisting snapshots of the same package.
Two are embedded here, following the line ranges cited by the claims:

* `V1` — the variant at the top of `gqbd.go` (lines 1-626), whose
  per-dialect escape helpers live in the postgres/mysql builder files
  (`escapePostgreSQLIdentifier`, `escapeMySQLIdentifier`).  This variant
  has the alias/qualifier-aware `EscapeIdentifier`, the
  `MariaDB || Mysql` identity guard in `ReplacePlaceholders`, and the
  `WhereBetween` that splits the generated placeholder pair.

* `V2` — the self-contained variant at `gqbd.go` lines 628-1285: the
  unified `buildSelect`/`buildInsert`/`buildUpdate`, the regex-based
  `shiftPlaceholders`, the whole-name-wrapping `EscapeIdentifier`, and a
  `ReplacePlaceholders` whose identity guard checks only `MariaDB`.

Strings are modelled as `List Char` (`Str`); Go's `(value, error)`
returns become `Str × Option Str`; Go maps used for INSERT/UPDATE
payloads become association lists carrying an explicit iteration order;
a nil map is `none`.  All definitions are structurally recursive so that
concrete runs evaluate with `decide`.
-/

namespace Gqbd

abbrev Str := List Char

/-- Literal helper: the character list of a Lean string literal. -/
def str (s : String) : Str := s.data

/-- gqbd.go:640 `PostgreSQL DBType = "postgres"`. -/
def PostgreSQL : Str := str "postgres"

/-- gqbd.go:641 `MariaDB DBType = "mariadb"`. -/
def MariaDB : Str := str "mariadb"

/-- gqbd.go:642 `Mysql DBType = "mysql"`. -/
def Mysql : Str := str "mysql"

/-- Bound argument values (`interface{}` payloads used by the repo's tests). -/
inductive Val where
  | i (n : Int)
  | s (v : Str)
deriving DecidableEq

/-- Decimal digits of a natural number, fuel-indexed so that it is
structurally recursive (models `fmt.Sprintf("%d", n)` / `strconv`). -/
def natDigitsAux : Nat → Nat → Str
  | 0, _ => []
  | fuel + 1, n =>
    if n < 10 then [Char.ofNat (48 + n)]
    else natDigitsAux fuel (n / 10) ++ [Char.ofNat (48 + n % 10)]

/-- Decimal rendering of a natural number. -/
def natDigits (n : Nat) : Str := natDigitsAux (n + 1) n

/-- Go `strings.Join(elems, sep)`. -/
def joinSep (sep : Str) : List Str → Str
  | [] => []
  | [x] => x
  | x :: y :: xs => x ++ sep ++ joinSep sep (y :: xs)

/-- Go `strings.ToUpper` (ASCII case mapping). -/
def toUpperGo (s : Str) : Str := s.map Char.toUpper

/-- Go `strings.Contains(s, string(c))` for a single-character needle. -/
def containsChar (c : Char) (s : Str) : Bool := s.any (fun x => x == c)

/-- Go `unicode.IsSpace` (the code points Go's `strings.Fields` splits on). -/
def isGoSpace (c : Char) : Bool :=
  let n := c.toNat
  (9 ≤ n && n ≤ 13) || n == 32 || n == 133 || n == 160 || n == 5760 ||
    (8192 ≤ n && n ≤ 8202) || n == 8232 || n == 8233 || n == 8239 ||
    n == 8287 || n == 12288

/-- Accumulator loop for `fields`. -/
def fieldsGo : Str → Str → List Str
  | acc, [] => if acc = [] then [] else [acc.reverse]
  | acc, c :: rest =>
    if isGoSpace c then
      (if acc = [] then fieldsGo [] rest else acc.reverse :: fieldsGo [] rest)
    else fieldsGo (c :: acc) rest

/-- Go `strings.Fields`. -/
def fields (s : Str) : List Str := fieldsGo [] s

/-- Go `strings.Split(s, ".")`. -/
def splitOnDot : Str → List Str
  | [] => [[]]
  | c :: rest =>
    if c = '.' then [] :: splitOnDot rest
    else
      match splitOnDot rest with
      | [] => [[c]]
      | t :: ts => (c :: t) :: ts

/-- Go `strings.Split(s, ", ")` (the separator used by `WhereBetween`),
splitting at the leftmost non-overlapping occurrences of `", "`. -/
def splitCommaSpace : Str → List Str
  | [] => [[]]
  | [c] => [[c]]
  | c :: c2 :: rest =>
    if c = ',' ∧ c2 = ' ' then [] :: splitCommaSpace rest
    else
      match splitCommaSpace (c2 :: rest) with
      | [] => [[c]]
      | t :: ts => (c :: t) :: ts

/-- Go `strings.ReplaceAll(s, string(target), repl)` for a one-character
pattern. -/
def replaceAllChar (target : Char) (repl : Str) (s : Str) : Str :=
  s.foldr (fun c acc => if c = target then repl ++ acc else c :: acc) []

/-- The builder state (`QueryBuilder` struct, gqbd.go:646-663).  `data`
is the INSERT/UPDATE payload map: `none` models a nil map, `some l` a
non-nil map whose iteration order is the list order. -/
structure QueryBuilder where
  op : Str
  dbType : Str
  table : Str
  columns : List Str
  joins : List Str
  conditions : List Str
  groupBy : List Str
  having : List Str
  orderBy : Str
  limit : Int
  offset : Int
  args : List Val
  distinct : Bool
  err : Option Str
  data : Option (List (Str × Val))
  returning : Str
deriving DecidableEq

/-- gqbd.go:1234-1240 (textually identical to gqbd.go:575-581):
uppercase the direction and force `DESC` unless it is `ASC`/`DESC`. -/
def ValidateDirection (direction : Str) : Str :=
  let d := toUpperGo direction
  if d = str "ASC" ∨ d = str "DESC" then d else str "DESC"

/-- gqbd.go:1275-1285 (textually identical to gqbd.go:616-626):
`count` comma-joined markers, `$startIdx..` for PostgreSQL, `?` otherwise. -/
def GeneratePlaceholders (dbType : Str) (startIdx count : Nat) : Str :=
  joinSep (str ", ")
    ((List.range count).map fun i =>
      if dbType = PostgreSQL then '$' :: natDigits (startIdx + i) else str "?")

/-- The character loop shared by both `ReplacePlaceholders` variants
(gqbd.go:595-605 and gqbd.go:1254-1264): each `?` becomes `$k`, `$k+1`, …. -/
def rpGo : Str → Nat → Str
  | [], _ => []
  | c :: rest, k =>
    if c = '?' then '$' :: natDigits k ++ rpGo rest (k + 1)
    else c :: rpGo rest k

end Gqbd

namespace Gqbd.V2

open Gqbd

/-- gqbd.go:1215-1226: wrap the whole name in the dialect quote, doubling
embedded quotes; `*` passes through; unknown dialects error. -/
def EscapeIdentifier (dbType name : Str) : Str × Option Str :=
  if name = str "*" then (name, none)
  else if dbType = PostgreSQL then
    ('"' :: replaceAllChar '"' (str "\"\"") name ++ ['"'], none)
  else if dbType = MariaDB ∨ dbType = Mysql then
    ('`' :: replaceAllChar '`' (str "``") name ++ ['`'], none)
  else ([], some (str "unsupported db type: " ++ dbType))

/-- gqbd.go:1250-1265: identity only for `MariaDB`; every other dialect
(including `Mysql`) gets the `$N` rewrite. -/
def ReplacePlaceholders (dbType condition : Str) (startIdx : Nat) : Str :=
  if dbType = MariaDB then condition else rpGo condition startIdx

/-- gqbd.go:1197-1206: regex `\$(\d+)` renumbering, as a character-level
state machine (`none` = outside a marker, `some none` = just read `$`,
`some (some v)` = reading digits with value `v` so far). -/
def shiftGo (off : Nat) : Option (Option Nat) → Str → Str
  | none, [] => []
  | some none, [] => ['$']
  | some (some v), [] => '$' :: natDigits (v + off)
  | st, c :: rest =>
    if c.isDigit then
      match st with
      | none => c :: shiftGo off none rest
      | some none => shiftGo off (some (some (c.toNat - 48))) rest
      | some (some v) => shiftGo off (some (some (10 * v + (c.toNat - 48)))) rest
    else
      (match st with
       | none => []
       | some none => ['$']
       | some (some v) => '$' :: natDigits (v + off)) ++
      (if c = '$' then shiftGo off (some none) rest else c :: shiftGo off none rest)

/-- gqbd.go:1197-1206 `shiftPlaceholders(condition, offset)`. -/
def shiftPlaceholders (condition : Str) (offset : Nat) : Str :=
  shiftGo offset none condition

/-- Zero-value builder for a given dialect (Go struct literal
`&QueryBuilder{dbType: dbType}`). -/
def emptyQB (dbType : Str) : QueryBuilder :=
  { op := [], dbType := dbType, table := [], columns := [], joins := [],
    conditions := [], groupBy := [], having := [], orderBy := [], limit := 0,
    offset := 0, args := [], distinct := false, err := none, data := none,
    returning := [] }

/-- Column loop of `NewQueryBuilder` (gqbd.go:736-744): escape each column,
stopping at the first error. -/
def escapeColumns (dbType : Str) : List Str → List Str × Option Str
  | [] => ([], none)
  | c :: cs =>
    match EscapeIdentifier dbType c with
    | (_, some e) => ([], some e)
    | (sc, none) =>
      match escapeColumns dbType cs with
      | (rest, e) => (sc :: rest, e)

/-- gqbd.go:728-750 `NewQueryBuilder`. -/
def NewQueryBuilder (dbType table : Str) (columns : List Str) : QueryBuilder :=
  let qb := emptyQB dbType
  match EscapeIdentifier dbType table with
  | (_, some e) => { qb with err := some e }
  | (safeTable, none) =>
    let qb := { qb with table := safeTable }
    match escapeColumns dbType columns with
    | (_, some e) => { qb with err := some e }
    | (safeColumns, none) =>
      { qb with columns := if safeColumns = [] then [str "*"] else safeColumns }

/-- gqbd.go:675-679 `BuildSelect`. -/
def BuildSelect (dbType table : Str) (columns : List Str) : QueryBuilder :=
  { NewQueryBuilder dbType table columns with op := str "SELECT" }

/-- gqbd.go:688-692 `BuildInsert`. -/
def BuildInsert (dbType table : Str) : QueryBuilder :=
  { NewQueryBuilder dbType table [] with op := str "INSERT" }

/-- gqbd.go:701-705 `BuildUpdate`. -/
def BuildUpdate (dbType table : Str) : QueryBuilder :=
  { NewQueryBuilder dbType table [] with op := str "UPDATE" }

/-- gqbd.go:714-718 `BuildDelete`. -/
def BuildDelete (dbType table : Str) : QueryBuilder :=
  { NewQueryBuilder dbType table [] with op := str "DELETE" }

/-- gqbd.go:757-763 `Distinct`. -/
def Distinct (qb : QueryBuilder) : QueryBuilder :=
  match qb.err with
  | some _ => qb
  | none => { qb with distinct := true }

/-- gqbd.go:772-783 `Aggregate`. -/
def Aggregate (function column : Str) (qb : QueryBuilder) : QueryBuilder :=
  match qb.err with
  | some _ => qb
  | none =>
    match EscapeIdentifier qb.dbType column with
    | (_, some e) => { qb with err := some e }
    | (sc, none) =>
      { qb with columns := qb.columns ++ [function ++ str "(" ++ sc ++ str ")"] }

/-- gqbd.go:792-803 `LeftJoin`. -/
def LeftJoin (joinTable onCondition : Str) (qb : QueryBuilder) : QueryBuilder :=
  match qb.err with
  | some _ => qb
  | none =>
    match EscapeIdentifier qb.dbType joinTable with
    | (_, some e) => { qb with err := some e }
    | (st, none) =>
      { qb with joins := qb.joins ++ [str "LEFT JOIN " ++ st ++ str " ON " ++ onCondition] }

/-- gqbd.go:812-823 `InnerJoin`. -/
def InnerJoin (joinTable onCondition : Str) (qb : QueryBuilder) : QueryBuilder :=
  match qb.err with
  | some _ => qb
  | none =>
    match EscapeIdentifier qb.dbType joinTable with
    | (_, some e) => { qb with err := some e }
    | (st, none) =>
      { qb with joins := qb.joins ++ [str "INNER JOIN " ++ st ++ str " ON " ++ onCondition] }

/-- gqbd.go:832-843 `RightJoin`. -/
def RightJoin (joinTable onCondition : Str) (qb : QueryBuilder) : QueryBuilder :=
  match qb.err with
  | some _ => qb
  | none =>
    match EscapeIdentifier qb.dbType joinTable with
    | (_, some e) => { qb with err := some e }
    | (st, none) =>
      { qb with joins := qb.joins ++ [str "RIGHT JOIN " ++ st ++ str " ON " ++ onCondition] }

/-- gqbd.go:852-860 `Where`: translate at the current argument count,
append the fragment and the bound values. -/
def Where (condition : Str) (args : List Val) (qb : QueryBuilder) : QueryBuilder :=
  match qb.err with
  | some _ => qb
  | none =>
    { qb with
      conditions := qb.conditions ++ [ReplacePlaceholders qb.dbType condition (qb.args.length + 1)],
      args := qb.args ++ args }

/-- gqbd.go:869-882 `WhereIn`. -/
def WhereIn (column : Str) (values : List Val) (qb : QueryBuilder) : QueryBuilder :=
  match qb.err with
  | some _ => qb
  | none =>
    match EscapeIdentifier qb.dbType column with
    | (_, some e) => { qb with err := some e }
    | (safeCol, none) =>
      { qb with
        conditions := qb.conditions ++
          [safeCol ++ str " IN (" ++
            GeneratePlaceholders qb.dbType (qb.args.length + 1) values.length ++ str ")"],
        args := qb.args ++ values }

/-- gqbd.go:892-905 `WhereBetween`.  Note the variant's format string
`" BETWEEN %s AND %s"` applied to `(safeCol, placeholders)`: the column
lands after `BETWEEN` and both markers after `AND`. -/
def WhereBetween (column : Str) (start stop : Val) (qb : QueryBuilder) : QueryBuilder :=
  match qb.err with
  | some _ => qb
  | none =>
    match EscapeIdentifier qb.dbType column with
    | (_, some e) => { qb with err := some e }
    | (safeCol, none) =>
      { qb with
        conditions := qb.conditions ++
          [str " BETWEEN " ++ safeCol ++ str " AND " ++
            GeneratePlaceholders qb.dbType (qb.args.length + 1) 2],
        args := qb.args ++ [start, stop] }

/-- Loop body of `GroupBy` (gqbd.go:917-924): partial appends are kept up
to the first escaping error. -/
def groupByGo : List Str → QueryBuilder → QueryBuilder
  | [], qb => qb
  | c :: cs, qb =>
    match EscapeIdentifier qb.dbType c with
    | (_, some e) => { qb with err := some e }
    | (sc, none) => groupByGo cs { qb with groupBy := qb.groupBy ++ [sc] }

/-- gqbd.go:913-926 `GroupBy`. -/
def GroupBy (columns : List Str) (qb : QueryBuilder) : QueryBuilder :=
  match qb.err with
  | some _ => qb
  | none => groupByGo columns qb

/-- gqbd.go:935-943 `Having`. -/
def Having (condition : Str) (args : List Val) (qb : QueryBuilder) : QueryBuilder :=
  match qb.err with
  | some _ => qb
  | none =>
    { qb with
      having := qb.having ++ [ReplacePlaceholders qb.dbType condition (qb.args.length + 1)],
      args := qb.args ++ args }

/-- gqbd.go:953-970 `OrderBy`.  `allowedColumns` models the Go
`map[string]bool`: `none` is a nil map and `some l` carries the key set
(the Go code only tests key membership, never the stored bool). -/
def OrderBy (column direction : Str) (allowedColumns : Option (List Str))
    (qb : QueryBuilder) : QueryBuilder :=
  match qb.err with
  | some _ => qb
  | none =>
    let direction := ValidateDirection direction
    let column :=
      match allowedColumns with
      | some allowed => if column ∈ allowed then column else str "id"
      | none => column
    match EscapeIdentifier qb.dbType column with
    | (_, some e) => { qb with err := some e }
    | (safeCol, none) => { qb with orderBy := safeCol ++ str " " ++ direction }

/-- gqbd.go:978-984 `Limit`. -/
def Limit (limit : Int) (qb : QueryBuilder) : QueryBuilder :=
  match qb.err with
  | some _ => qb
  | none => { qb with limit := limit }

/-- gqbd.go:992-998 `Offset`. -/
def Offset (offset : Int) (qb : QueryBuilder) : QueryBuilder :=
  match qb.err with
  | some _ => qb
  | none => { qb with offset := offset }

/-- gqbd.go:1006-1013 `Values`: only the operation is checked — the
stored error is neither consulted nor preserved on a mismatch. -/
def Values (data : Option (List (Str × Val))) (qb : QueryBuilder) : QueryBuilder :=
  if qb.op ≠ str "INSERT" then
    { qb with err := some (str "Values() can only be used with INSERT operation") }
  else { qb with data := data }

/-- gqbd.go:1021-1028 `Set`. -/
def Set (data : Option (List (Str × Val))) (qb : QueryBuilder) : QueryBuilder :=
  if qb.op ≠ str "UPDATE" then
    { qb with err := some (str "Set() can only be used with UPDATE operation") }
  else { qb with data := data }

/-- gqbd.go:1036-1043 `Returning`. -/
def Returning (clause : Str) (qb : QueryBuilder) : QueryBuilder :=
  if qb.op ≠ str "INSERT" then
    { qb with err := some (str "Returning() can only be used with INSERT operation") }
  else { qb with returning := clause }

/-- gqbd.go:1068-1111 `buildSelect`.  The LIMIT/OFFSET values are appended
to the builder's own `args` slice, so the updated builder is returned
alongside the rendered triple. -/
def buildSelect (qb : QueryBuilder) : (Str × List Val × Option Str) × QueryBuilder :=
  let q1 := str "SELECT " ++ (if qb.distinct then str "DISTINCT " else []) ++
    joinSep (str ", ") qb.columns ++ str " FROM " ++ qb.table
  let q2 := if qb.joins = [] then q1 else q1 ++ str " " ++ joinSep (str " ") qb.joins
  let q3 := if qb.conditions = [] then q2
    else q2 ++ str " WHERE " ++ joinSep (str " AND ") qb.conditions
  let q4 := if qb.groupBy = [] then q3
    else q3 ++ str " GROUP BY " ++ joinSep (str ", ") qb.groupBy
  let q5 := if qb.having = [] then q4
    else q4 ++ str " HAVING " ++ joinSep (str " AND ") qb.having
  let q6 := if qb.orderBy = [] then q5 else q5 ++ str " ORDER BY " ++ qb.orderBy
  let q7 := if qb.limit > 0 then
      q6 ++ (if qb.dbType = PostgreSQL then str " LIMIT " ++ '$' :: natDigits (qb.args.length + 1)
             else str " LIMIT ?")
    else q6
  let args7 := if qb.limit > 0 then qb.args ++ [Val.i qb.limit] else qb.args
  let q8 := if qb.offset > 0 then
      q7 ++ (if qb.dbType = PostgreSQL then str " OFFSET " ++ '$' :: natDigits (args7.length + 1)
             else str " OFFSET ?")
    else q7
  let args8 := if qb.offset > 0 then args7 ++ [Val.i qb.offset] else args7
  ((q8, args8, none), { qb with args := args8 })

/-- Map loop of `buildInsert` (gqbd.go:1121-1134): escaped columns,
positional placeholders and values, stopping at the first error. -/
def insertParts (dbType : Str) : List (Str × Val) → Nat → List Str × List Str × List Val × Option Str
  | [], _ => ([], [], [], none)
  | (col, v) :: rest, idx =>
    match EscapeIdentifier dbType col with
    | (_, some e) => ([], [], [], some e)
    | (sc, none) =>
      match insertParts dbType rest (idx + 1) with
      | (cols, phs, args, e) =>
        (sc :: cols,
         (if dbType = PostgreSQL then '$' :: natDigits idx else str "?") :: phs,
         v :: args, e)

/-- gqbd.go:1113-1140 `buildInsert`. -/
def buildInsert (qb : QueryBuilder) : Str × List Val × Option Str :=
  match qb.data with
  | none => ([], [], some (str "no data provided for INSERT"))
  | some data =>
    match insertParts qb.dbType data 1 with
    | (_, _, _, some e) => ([], [], some e)
    | (cols, phs, args, none) =>
      let q := str "INSERT INTO " ++ qb.table ++ str " (" ++ joinSep (str ", ") cols ++
        str ") VALUES (" ++ joinSep (str ", ") phs ++ str ")"
      let q := if qb.dbType = PostgreSQL ∧ qb.returning ≠ [] then
          q ++ str " RETURNING " ++ qb.returning
        else q
      (q, args, none)

/-- Map loop of `buildUpdate` (gqbd.go:1148-1163). -/
def updateParts (dbType : Str) : List (Str × Val) → Nat → List Str × List Val × Option Str
  | [], _ => ([], [], none)
  | (col, v) :: rest, idx =>
    match EscapeIdentifier dbType col with
    | (_, some e) => ([], [], some e)
    | (sc, none) =>
      match updateParts dbType rest (idx + 1) with
      | (clauses, args, e) =>
        ((sc ++ str " = " ++ (if dbType = PostgreSQL then '$' :: natDigits idx else str "?")) :: clauses,
         v :: args, e)

/-- gqbd.go:1142-1178 `buildUpdate`: for PostgreSQL each stored condition
is renumbered by `shiftPlaceholders` with the payload size before the
WHERE clause is joined; WHERE-bound args follow the SET args. -/
def buildUpdate (qb : QueryBuilder) : Str × List Val × Option Str :=
  match qb.data with
  | none => ([], [], some (str "no data provided for UPDATE"))
  | some data =>
    match updateParts qb.dbType data 1 with
    | (_, _, some e) => ([], [], some e)
    | (setClauses, updateArgs, none) =>
      let q := str "UPDATE " ++ qb.table ++ str " SET " ++ joinSep (str ", ") setClauses
      if qb.conditions = [] then (q, updateArgs, none)
      else
        let conds := if qb.dbType = PostgreSQL then
            qb.conditions.map (fun c => shiftPlaceholders c data.length)
          else qb.conditions
        (q ++ str " WHERE " ++ joinSep (str " AND ") conds, updateArgs ++ qb.args, none)

/-- gqbd.go:1180-1188 `buildDelete`. -/
def buildDelete (qb : QueryBuilder) : Str × List Val × Option Str :=
  (str "DELETE FROM " ++ qb.table ++
    (if qb.conditions = [] then []
     else str " WHERE " ++ joinSep (str " AND ") qb.conditions),
   qb.args, none)

/-- gqbd.go:1050-1066 `Build`: surface a stored error, otherwise dispatch
on the operation.  The builder is returned as well because the SELECT
path mutates `args`. -/
def Build (qb : QueryBuilder) : (Str × List Val × Option Str) × QueryBuilder :=
  match qb.err with
  | some e => (([], [], some e), qb)
  | none =>
    if qb.op = str "SELECT" then buildSelect qb
    else if qb.op = str "INSERT" then (buildInsert qb, qb)
    else if qb.op = str "UPDATE" then (buildUpdate qb, qb)
    else if qb.op = str "DELETE" then (buildDelete qb, qb)
    else (([], [], some (str "unsupported operation: " ++ qb.op)), qb)

end Gqbd.V2

namespace Gqbd.V1

open Gqbd

/-- postgres builder file: `escapePostgreSQLIdentifier` — plain wrap, no
quote doubling, never errors. -/
def escapePostgreSQLIdentifier (name : Str) : Str × Option Str :=
  ('"' :: name ++ ['"'], none)

/-- mysql builder file: `escapeMySQLIdentifier` — plain backtick wrap. -/
def escapeMySQLIdentifier (name : Str) : Str × Option Str :=
  ('`' :: name ++ ['`'], none)

/-- gqbd.go:558-567 `escapeIdentifierName`: per-dialect dispatch; an
unknown dialect returns the name unchanged. -/
def escapeIdentifierName (dbType name : Str) : Str × Option Str :=
  if dbType = PostgreSQL then escapePostgreSQLIdentifier name
  else if dbType = MariaDB ∨ dbType = Mysql then escapeMySQLIdentifier name
  else (name, none)

/-- gqbd.go:510-556 `EscapeIdentifier`: `*` passes; empty errors; a name
with a space is treated as `"table AS alias"` (three fields, middle
uppercasing to `AS`) or `"table alias"` (two fields) with only the table
token escaped, other field shapes falling through; then a name with a
dot is treated as `qualifier.column` (exactly one dot) with only the
column escaped; otherwise the whole name is escaped. -/
def EscapeIdentifier (dbType name : Str) : Str × Option Str :=
  if name = str "*" then (name, none)
  else if name = [] then ([], some (str "empty identifier not allowed"))
  else
    let spaceResult : Option (Str × Option Str) :=
      if containsChar ' ' name then
        match fields name with
        | [t, x, a] =>
          if toUpperGo x = str "AS" then
            some (match escapeIdentifierName dbType t with
                  | (_, some e) => ([], some e)
                  | (et, none) => (et ++ str " AS " ++ a, none))
          else none
        | [t, a] =>
          some (match escapeIdentifierName dbType t with
                | (_, some e) => ([], some e)
                | (et, none) => (et ++ str " " ++ a, none))
        | _ => none
      else none
    match spaceResult with
    | some r => r
    | none =>
      if containsChar '.' name then
        match splitOnDot name with
        | [q, c] =>
          (match escapeIdentifierName dbType c with
           | (_, some e) => ([], some e)
           | (ec, none) => (q ++ '.' :: ec, none))
        | _ => escapeIdentifierName dbType name
      else escapeIdentifierName dbType name

/-- gqbd.go:591-606 `ReplacePlaceholders`: identity for `MariaDB` and
`Mysql`, the `$N` rewrite otherwise. -/
def ReplacePlaceholders (dbType condition : Str) (startIdx : Nat) : Str :=
  if dbType = MariaDB ∨ dbType = Mysql then condition else rpGo condition startIdx

/-- Column loop of `NewQueryBuilder` (gqbd.go:93-101). -/
def escapeColumns (dbType : Str) : List Str → List Str × Option Str
  | [] => ([], none)
  | c :: cs =>
    match EscapeIdentifier dbType c with
    | (_, some e) => ([], some e)
    | (sc, none) =>
      match escapeColumns dbType cs with
      | (rest, e) => (sc :: rest, e)

/-- gqbd.go:85-107 `NewQueryBuilder`. -/
def NewQueryBuilder (dbType table : Str) (columns : List Str) : QueryBuilder :=
  let qb := V2.emptyQB dbType
  match EscapeIdentifier dbType table with
  | (_, some e) => { qb with err := some e }
  | (safeTable, none) =>
    let qb := { qb with table := safeTable }
    match escapeColumns dbType columns with
    | (_, some e) => { qb with err := some e }
    | (safeColumns, none) =>
      { qb with columns := if safeColumns = [] then [str "*"] else safeColumns }

/-- gqbd.go:44-48 `BuildSelect`. -/
def BuildSelect (dbType table : Str) (columns : List Str) : QueryBuilder :=
  { NewQueryBuilder dbType table columns with op := str "SELECT" }

/-- gqbd.go:192-200 `Where`. -/
def Where (condition : Str) (args : List Val) (qb : QueryBuilder) : QueryBuilder :=
  match qb.err with
  | some _ => qb
  | none =>
    { qb with
      conditions := qb.conditions ++ [ReplacePlaceholders qb.dbType condition (qb.args.length + 1)],
      args := qb.args ++ args }

/-- gqbd.go:232-250 `WhereBetween`: generate two markers, split on `", "`,
error unless the split has exactly two pieces, then append
`col BETWEEN p1 AND p2` and the two bound values. -/
def WhereBetween (column : Str) (start stop : Val) (qb : QueryBuilder) : QueryBuilder :=
  match qb.err with
  | some _ => qb
  | none =>
    match EscapeIdentifier qb.dbType column with
    | (_, some e) => { qb with err := some e }
    | (safeCol, none) =>
      let placeholders := GeneratePlaceholders qb.dbType (qb.args.length + 1) 2
      match splitCommaSpace placeholders with
      | [p1, p2] =>
        { qb with
          conditions := qb.conditions ++
            [safeCol ++ str " BETWEEN " ++ p1 ++ str " AND " ++ p2],
          args := qb.args ++ [start, stop] }
      | _ => { qb with err := some (str "failed to generate placeholders for BETWEEN") }

end Gqbd.V1

namespace Gqbd

/-- Placeholder tokens of a rendered query: `q` is a literal `?` marker,
`d n` is a `$n` marker. -/
inductive PTok where
  | q
  | d (n : Nat)
deriving DecidableEq

/-- Scanner for placeholder tokens, one character at a time (`none` =
outside a marker, `some none` = just read `$`, `some (some v)` = reading
the digits of a `$`-marker with value `v` so far).  A `$` with no digits
is not a marker, matching the regex `\$(\d+)`. -/
def scanGo : Option (Option Nat) → Str → List PTok
  | some (some v), [] => [PTok.d v]
  | _, [] => []
  | st, c :: rest =>
    if c.isDigit then
      match st with
      | none => scanGo none rest
      | some none => scanGo (some (some (c.toNat - 48))) rest
      | some (some v) => scanGo (some (some (10 * v + (c.toNat - 48)))) rest
    else
      (match st with
       | some (some v) => [PTok.d v]
       | _ => []) ++
      (if c = '?' then PTok.q :: scanGo none rest
       else if c = '$' then scanGo (some none) rest
       else scanGo none rest)

/-- The placeholder tokens of a string, in textual order. -/
def placeholderToks (s : Str) : List PTok := scanGo none s

/-- Number of `?` characters in a string. -/
def countQ : Str → Nat
  | [] => 0
  | c :: rest => (if c = '?' then 1 else 0) + countQ rest

/-- `true` iff the first character (if any) is not a decimal digit. -/
def headNotDigit : Str → Bool
  | [] => true
  | c :: _ => !c.isDigit

/-- No `$` and no `?` at all: the string carries no marker. -/
def noMarks (s : Str) : Bool := s.all fun c => c != '$' && c != '?'

/-- No `$` character. -/
def noDollar (s : Str) : Bool := s.all fun c => c != '$'

/-- Well-formed user condition: no literal `$`, and no `?` immediately
followed by a digit (so every `?` is one marker and translation cannot
merge digits). -/
def condOk : Str → Bool
  | [] => true
  | c :: rest =>
    if c = '$' then false
    else if c = '?' then headNotDigit rest && condOk rest
    else condOk rest

/-- The token list a well-formed query section must carry: `$start`,
`$start+1`, … for PostgreSQL, `k` copies of `?` for the `?`-dialects. -/
def expectedToks (db : Str) (start k : Nat) : List PTok :=
  if db = PostgreSQL then (List.range' start k).map PTok.d else List.replicate k PTok.q

/-- Chained configuration calls of the V2 builder used by the placeholder
invariant. -/
inductive BOp where
  | whereC (cond : Str) (args : List Val)
  | whereInC (col : Str) (vals : List Val)
  | whereBetweenC (col : Str) (start stop : Val)
  | havingC (cond : Str) (args : List Val)
  | groupByC (cols : List Str)
  | orderByC (col dir : Str) (allowed : Option (List Str))
  | limitC (n : Int)
  | offsetC (n : Int)
  | distinctC
deriving DecidableEq

/-- Interpretation of a chained call on the V2 builder. -/
def applyOp (qb : QueryBuilder) : BOp → QueryBuilder
  | .whereC cond args => V2.Where cond args qb
  | .whereInC col vals => V2.WhereIn col vals qb
  | .whereBetweenC col s t => V2.WhereBetween col s t qb
  | .havingC cond args => V2.Having cond args qb
  | .groupByC cols => V2.GroupBy cols qb
  | .orderByC col dir al => V2.OrderBy col dir al qb
  | .limitC n => V2.Limit n qb
  | .offsetC n => V2.Offset n qb
  | .distinctC => V2.Distinct qb

/-- A chain of configuration calls. -/
def run (qb : QueryBuilder) (ops : List BOp) : QueryBuilder :=
  ops.foldl applyOp qb

/-- Caller well-formedness of one chained call: condition strings are
`condOk` and bind exactly as many values as they have markers;
identifiers carry no marker characters. -/
def cleanOp : BOp → Bool
  | .whereC cond args => condOk cond && (countQ cond == args.length)
  | .whereInC col _ => noMarks col
  | .whereBetweenC col _ _ => noMarks col
  | .havingC cond args => condOk cond && (countQ cond == args.length)
  | .groupByC cols => cols.all noMarks
  | .orderByC col _ _ => noMarks col
  | _ => true

/-- Does the call append a WHERE fragment? -/
def isCondOp : BOp → Bool
  | .whereC _ _ => true
  | .whereInC _ _ => true
  | .whereBetweenC _ _ _ => true
  | _ => false

/-- Does the call append a HAVING fragment? -/
def isHavingOp : BOp → Bool
  | .havingC _ _ => true
  | _ => false

/-- The single-marker string `GeneratePlaceholders` produces at one
index: `$k` for PostgreSQL, `?` otherwise. -/
def singlePH (db : Str) (k : Nat) : Str :=
  if db = PostgreSQL then '$' :: natDigits k else str "?"

/-- Decimal accumulation step used by the scanners. -/
def digitStep (a : Nat) (c : Char) : Nat := 10 * a + (c.toNat - 48)

/-- All characters pass a boolean space test. -/
def noSpaceStr (s : Str) : Bool := s.all fun c => !isGoSpace c

/-- No `.` character. -/
def noDotStr (s : Str) : Bool := s.all fun c => c != '.'

/-- No `,` character. -/
def noComma (s : Str) : Bool := s.all fun c => c != ','

/-- The SET-clause fragments `updateParts` renders for PostgreSQL
(`"col" = $idx` for each payload entry, indices counting from `idx`). -/
def pgSetClauses : List (Str × Val) → Nat → List Str
  | [], _ => []
  | (col, _) :: rest, idx =>
    ((V2.EscapeIdentifier PostgreSQL col).1 ++ str " = " ++ '$' :: natDigits idx) ::
      pgSetClauses rest (idx + 1)

/-- The placeholder tokens pending in a V2 builder state: those of the
WHERE fragments (in order) followed by those of the HAVING fragments. -/
def stateToks (qb : QueryBuilder) : List PTok :=
  (qb.conditions.map fun c => scanGo none c).flatten ++
    (qb.having.map fun c => scanGo none c).flatten

/-- Invariant of a V2 SELECT builder under construction: no stored error,
the pending fragment tokens are exactly `$1..$n` (PostgreSQL) or `n`
copies of `?` (MariaDB) for `n` bound arguments, and every other piece of
rendering material is marker-free (no joins are used). -/
def InvV2 (db : Str) (qb : QueryBuilder) : Prop :=
  qb.err = none ∧ qb.dbType = db ∧ qb.op = str "SELECT" ∧
  stateToks qb = expectedToks db 1 qb.args.length ∧
  noMarks qb.table = true ∧ (∀ c ∈ qb.columns, noMarks c = true) ∧
  (∀ g ∈ qb.groupBy, noMarks g = true) ∧ noMarks qb.orderBy = true ∧ qb.joins = []

end Gqbd

namespace Gqbd

/-! ### Lemmas: decimal rendering -/

theorem natDigitsAux_congr : ∀ (f₁ m f₂ : Nat), m < f₁ → m < f₂ →
    natDigitsAux f₁ m = natDigitsAux f₂ m := by
  intro f₁
  induction f₁ with
  | zero => intro m f₂ h1 _; omega
  | succ f ih =>
    intro m f₂ h1 h2
    cases f₂ with
    | zero => omega
    | succ g =>
      simp only [natDigitsAux]
      by_cases hm : m < 10
      · simp [hm]
      · rw [if_neg hm, if_neg hm]
        have hd : m / 10 < m := Nat.div_lt_self (by omega) (by omega)
        rw [ih (m / 10) g (by omega) (by omega)]

theorem natDigits_lt {n : Nat} (h : n < 10) : natDigits n = [Char.ofNat (48 + n)] := by
  simp [natDigits, natDigitsAux, h]

theorem natDigits_ge {n : Nat} (h : 10 ≤ n) :
    natDigits n = natDigits (n / 10) ++ [Char.ofNat (48 + n % 10)] := by
  have hd : n / 10 < n := Nat.div_lt_self (by omega) (by omega)
  show natDigitsAux (n + 1) n = natDigitsAux (n / 10 + 1) (n / 10) ++ _
  rw [show natDigitsAux (n + 1) n =
      if n < 10 then [Char.ofNat (48 + n)]
      else natDigitsAux n (n / 10) ++ [Char.ofNat (48 + n % 10)] from rfl]
  rw [if_neg (by omega)]
  rw [natDigitsAux_congr n (n / 10) (n / 10 + 1) (by omega) (by omega)]

theorem charOfNat_toNat {k : Nat} (h : k < 10) : (Char.ofNat (48 + k)).toNat = 48 + k := by
  interval_cases k <;> decide

theorem charOfNat_isDigit {k : Nat} (h : k < 10) : (Char.ofNat (48 + k)).isDigit = true := by
  interval_cases k <;> decide

theorem natDigits_ne_nil (n : Nat) : natDigits n ≠ [] := by
  by_cases h : n < 10
  · rw [natDigits_lt h]; simp
  · rw [natDigits_ge (by omega)]; simp

theorem natDigits_isDigit : ∀ (n : Nat), ∀ c ∈ natDigits n, c.isDigit = true := by
  intro n
  induction n using Nat.strong_induction_on with
  | _ n ih =>
    by_cases h : n < 10
    · rw [natDigits_lt h]
      intro c hc
      rw [List.mem_singleton] at hc
      subst hc
      exact charOfNat_isDigit h
    · rw [natDigits_ge (by omega)]
      intro c hc
      rcases List.mem_append.mp hc with h1 | h2
      · exact ih (n / 10) (Nat.div_lt_self (by omega) (by omega)) c h1
      · rw [List.mem_singleton] at h2
        subst h2
        exact charOfNat_isDigit (Nat.mod_lt _ (by omega))

theorem natDigits_foldl : ∀ (n : Nat), ∀ v,
    (natDigits n).foldl digitStep v = v * 10 ^ (natDigits n).length + n := by
  intro n
  induction n using Nat.strong_induction_on with
  | _ n ih =>
    intro v
    by_cases h : n < 10
    · rw [natDigits_lt h]
      simp only [List.foldl_cons, List.foldl_nil, List.length_singleton, digitStep]
      rw [charOfNat_toNat h]
      simp
      omega
    · have hd : n / 10 < n := Nat.div_lt_self (by omega) (by omega)
      rw [natDigits_ge (by omega)]
      rw [List.foldl_append]
      rw [ih (n / 10) hd v]
      simp only [List.foldl_cons, List.foldl_nil, digitStep, List.length_append,
        List.length_singleton]
      rw [charOfNat_toNat (Nat.mod_lt _ (by omega))]
      have h1 : 48 + n % 10 - 48 = n % 10 := by omega
      rw [h1]
      have h2 : (10:Nat) ^ ((natDigits (n / 10)).length + 1) =
          10 ^ (natDigits (n / 10)).length * 10 := pow_succ 10 _
      rw [h2]
      have h3 : 10 * (n / 10) + n % 10 = n := Nat.div_add_mod n 10
      generalize (10:Nat) ^ (natDigits (n / 10)).length = P
      have h4 : 10 * (v * P + n / 10) + n % 10 = 10 * (v * P) + (10 * (n / 10) + n % 10) := by
        ring
      rw [h4, h3]
      ring

theorem natDigits_foldl_zero (n : Nat) : (natDigits n).foldl digitStep 0 = n := by
  rw [natDigits_foldl]
  simp

end Gqbd

namespace Gqbd

/-! ### Lemmas: the placeholder-token scanner -/

theorem scanGo_cons (st : Option (Option Nat)) (c : Char) (rest : Str) :
    scanGo st (c :: rest) =
    if c.isDigit then
      match st with
      | none => scanGo none rest
      | some none => scanGo (some (some (c.toNat - 48))) rest
      | some (some v) => scanGo (some (some (10 * v + (c.toNat - 48)))) rest
    else
      (match st with
       | some (some v) => [PTok.d v]
       | _ => []) ++
      (if c = '?' then PTok.q :: scanGo none rest
       else if c = '$' then scanGo (some none) rest
       else scanGo none rest) := by
  cases st with
  | none => rfl
  | some st2 => cases st2 <;> rfl

theorem scanGo_none_skip {c : Char} (h2 : c ≠ '?') (h3 : c ≠ '$') (rest : Str) :
    scanGo none (c :: rest) = scanGo none rest := by
  rw [scanGo_cons]
  by_cases h : c.isDigit <;> simp [h, h2, h3]

theorem scan_append_noMarks {s : Str} (h : noMarks s = true) (t : Str) :
    scanGo none (s ++ t) = scanGo none t := by
  induction s with
  | nil => rfl
  | cons c cs ih =>
    simp only [noMarks, List.all_cons, Bool.and_eq_true, bne_iff_ne, ne_eq] at h
    rw [List.cons_append, scanGo_none_skip h.1.2 h.1.1]
    exact ih h.2

theorem scan_acc {ds : Str} (h : ∀ c ∈ ds, c.isDigit = true) (v : Nat) (t : Str) :
    scanGo (some (some v)) (ds ++ t) = scanGo (some (some (ds.foldl digitStep v))) t := by
  induction ds generalizing v with
  | nil => simp
  | cons c cs ih =>
    have hc : c.isDigit = true := h c (by simp)
    rw [List.cons_append, scanGo_cons]
    simp only [hc, if_true, List.foldl_cons]
    rw [show 10 * v + (c.toNat - 48) = digitStep v c from rfl]
    exact ih (fun x hx => h x (by simp [hx])) (digitStep v c)

theorem scan_marker {t : Str} (ht : headNotDigit t = true) (k : Nat) :
    scanGo none ('$' :: (natDigits k ++ t)) = PTok.d k :: scanGo none t := by
  rw [scanGo_cons]
  simp only [show ('$').isDigit = false from rfl, if_false, Bool.false_eq_true,
    show ¬(('$') = '?') from by decide, show (('$') = '$') from rfl, if_true,
    List.nil_append, ite_false, ite_true]
  obtain ⟨c, cs, hcons⟩ : ∃ c cs, natDigits k = c :: cs := by
    cases hnd : natDigits k with
    | nil => exact absurd hnd (natDigits_ne_nil k)
    | cons c cs => exact ⟨c, cs, rfl⟩
  rw [hcons, List.cons_append, scanGo_cons]
  have hc : c.isDigit = true := natDigits_isDigit k c (by rw [hcons]; simp)
  simp only [hc, if_true]
  rw [scan_acc (fun x hx => natDigits_isDigit k x (by rw [hcons]; simp [hx])) _ t]
  have hval : cs.foldl digitStep (c.toNat - 48) = k := by
    have h0 := natDigits_foldl_zero k
    rw [hcons] at h0
    simpa [digitStep] using h0
  rw [hval]
  cases t with
  | nil => rfl
  | cons c2 r =>
    have hc2 : c2.isDigit = false := by simpa [headNotDigit] using ht
    rw [scanGo_cons, scanGo_cons]
    simp [hc2]

theorem scan_append {b : Str} (hb : headNotDigit b = true) :
    ∀ (a : Str) (st : Option (Option Nat)),
      scanGo st (a ++ b) = scanGo st a ++ scanGo none b := by
  intro a
  induction a with
  | nil =>
    intro st
    cases st with
    | none =>
      rw [List.nil_append, show scanGo none [] = ([] : List PTok) from rfl, List.nil_append]
    | some st2 =>
      cases st2 with
      | none =>
        cases b with
        | nil => rfl
        | cons c r =>
          have hc : c.isDigit = false := by simpa [headNotDigit] using hb
          rw [List.nil_append, scanGo_cons, scanGo_cons]
          simp [hc, show scanGo (some none) [] = ([] : List PTok) from rfl]
      | some v =>
        cases b with
        | nil => rfl
        | cons c r =>
          have hc : c.isDigit = false := by simpa [headNotDigit] using hb
          rw [List.nil_append, scanGo_cons, scanGo_cons]
          simp [hc, show scanGo (some (some v)) [] = [PTok.d v] from rfl]
  | cons c cs ih =>
    intro st
    rw [List.cons_append, scanGo_cons, scanGo_cons]
    by_cases hc : c.isDigit
    · cases st with
      | none => simp [hc, ih]
      | some st2 => cases st2 <;> simp [hc, ih]
    · by_cases hq : c = '?'
      · cases st with
        | none => simp [hc, hq, ih]
        | some st2 => cases st2 <;> simp [hc, hq, ih]
      · by_cases hd : c = '$'
        · cases st with
          | none => simp [hc, hq, hd, ih]
          | some st2 => cases st2 <;> simp [hc, hq, hd, ih]
        · cases st with
          | none => simp [hc, hq, hd, ih]
          | some st2 => cases st2 <;> simp [hc, hq, hd, ih]

theorem scan_noDollar {s : Str} (h : noDollar s = true) :
    scanGo none s = List.replicate (countQ s) PTok.q := by
  induction s with
  | nil => rfl
  | cons c cs ih =>
    simp only [noDollar, List.all_cons, Bool.and_eq_true, bne_iff_ne, ne_eq] at h
    by_cases hq : c = '?'
    · subst hq
      rw [scanGo_cons]
      simp only [show ('?').isDigit = false from rfl, Bool.false_eq_true, if_false,
        ite_true, List.nil_append]
      rw [ih h.2]
      have hcq : countQ ('?' :: cs) = countQ cs + 1 := by simp [countQ, Nat.add_comm]
      rw [hcq, List.replicate_succ]
    · rw [scanGo_none_skip hq h.1, ih h.2]
      simp [countQ, hq]

theorem rpGo_headNotDigit {s : Str} (h : headNotDigit s = true) (k : Nat) :
    headNotDigit (rpGo s k) = true := by
  cases s with
  | nil => rfl
  | cons c cs =>
    by_cases hq : c = '?'
    · subst hq; simp [rpGo, headNotDigit]
    · simpa [rpGo, hq, headNotDigit] using h

theorem condOk_cons {c : Char} {cs : Str} (h : condOk (c :: cs) = true) :
    c ≠ '$' ∧ condOk cs = true ∧ (c = '?' → headNotDigit cs = true) := by
  by_cases hd : c = '$'
  · subst hd; simp [condOk] at h
  · by_cases hq : c = '?'
    · subst hq
      rw [show condOk ('?' :: cs) = (headNotDigit cs && condOk cs) from by
        simp [condOk]] at h
      rw [Bool.and_eq_true] at h
      exact ⟨by decide, h.2, fun _ => h.1⟩
    · simp only [condOk, if_neg hd, if_neg hq] at h
      exact ⟨hd, h, fun hc => absurd hc hq⟩

theorem condOk_noDollar {s : Str} (h : condOk s = true) : noDollar s = true := by
  induction s with
  | nil => rfl
  | cons c cs ih =>
    obtain ⟨h1, h2, _⟩ := condOk_cons h
    simp only [noDollar, List.all_cons, Bool.and_eq_true, bne_iff_ne, ne_eq]
    exact ⟨h1, by simpa [noDollar] using ih h2⟩

theorem scan_rpGo : ∀ {c : Str}, condOk c = true →
    ∀ k, scanGo none (rpGo c k) = (List.range' k (countQ c)).map PTok.d := by
  intro c
  induction c with
  | nil => intro _ k; rfl
  | cons x cs ih =>
    intro h k
    obtain ⟨hd, hcs, hq⟩ := condOk_cons h
    by_cases hx : x = '?'
    · subst hx
      rw [show rpGo ('?' :: cs) k = '$' :: (natDigits k ++ rpGo cs (k + 1)) by simp [rpGo]]
      rw [scan_marker (rpGo_headNotDigit (hq rfl) (k + 1)) k]
      rw [ih hcs (k + 1)]
      have hcq : countQ ('?' :: cs) = countQ cs + 1 := by simp [countQ, Nat.add_comm]
      rw [hcq, List.range'_succ]
      simp
    · rw [show rpGo (x :: cs) k = x :: rpGo cs k by simp [rpGo, hx]]
      rw [scanGo_none_skip hx hd, ih hcs k]
      simp [countQ, hx]

end Gqbd

namespace Gqbd

/-! ### Lemmas: the regex renumbering `shiftPlaceholders` -/

theorem shiftGo_cons (off : Nat) (st : Option (Option Nat)) (c : Char) (rest : Str) :
    V2.shiftGo off st (c :: rest) =
    if c.isDigit then
      match st with
      | none => c :: V2.shiftGo off none rest
      | some none => V2.shiftGo off (some (some (c.toNat - 48))) rest
      | some (some v) => V2.shiftGo off (some (some (10 * v + (c.toNat - 48)))) rest
    else
      (match st with
       | none => []
       | some none => ['$']
       | some (some v) => '$' :: natDigits (v + off)) ++
      (if c = '$' then V2.shiftGo off (some none) rest else c :: V2.shiftGo off none rest) := by
  cases st with
  | none => rfl
  | some st2 => cases st2 <;> rfl

theorem shiftGo_none_pass {c : Char} (h3 : c ≠ '$') (off : Nat) (rest : Str) :
    V2.shiftGo off none (c :: rest) = c :: V2.shiftGo off none rest := by
  rw [shiftGo_cons]
  by_cases h : c.isDigit <;> simp [h, h3]

theorem shift_append_noDollar {s : Str} (h : noDollar s = true) (off : Nat) (t : Str) :
    V2.shiftGo off none (s ++ t) = s ++ V2.shiftGo off none t := by
  induction s with
  | nil => rfl
  | cons c cs ih =>
    simp only [noDollar, List.all_cons, Bool.and_eq_true, bne_iff_ne, ne_eq] at h
    rw [List.cons_append, shiftGo_none_pass h.1, ih h.2, List.cons_append]

theorem shift_acc {ds : Str} (h : ∀ c ∈ ds, c.isDigit = true) (off v : Nat) (t : Str) :
    V2.shiftGo off (some (some v)) (ds ++ t) =
      V2.shiftGo off (some (some (ds.foldl digitStep v))) t := by
  induction ds generalizing v with
  | nil => simp
  | cons c cs ih =>
    have hc : c.isDigit = true := h c (by simp)
    rw [List.cons_append, shiftGo_cons]
    simp only [hc, if_true, List.foldl_cons]
    rw [show 10 * v + (c.toNat - 48) = digitStep v c from rfl]
    exact ih (fun x hx => h x (by simp [hx])) (digitStep v c)

theorem shift_marker {t : Str} (ht : headNotDigit t = true) (off k : Nat) :
    V2.shiftGo off none ('$' :: (natDigits k ++ t)) =
      '$' :: (natDigits (k + off) ++ V2.shiftGo off none t) := by
  rw [shiftGo_cons]
  simp only [show ('$').isDigit = false from rfl, Bool.false_eq_true, if_false,
    show (('$') = '$') from rfl, ite_true]
  obtain ⟨c, cs, hcons⟩ : ∃ c cs, natDigits k = c :: cs := by
    cases hnd : natDigits k with
    | nil => exact absurd hnd (natDigits_ne_nil k)
    | cons c cs => exact ⟨c, cs, rfl⟩
  rw [hcons, List.cons_append, shiftGo_cons]
  have hc : c.isDigit = true := natDigits_isDigit k c (by rw [hcons]; simp)
  simp only [hc, if_true]
  rw [shift_acc (fun x hx => natDigits_isDigit k x (by rw [hcons]; simp [hx])) off _ t]
  have hval : cs.foldl digitStep (c.toNat - 48) = k := by
    have h0 := natDigits_foldl_zero k
    rw [hcons] at h0
    simpa [digitStep] using h0
  rw [hval]
  cases t with
  | nil =>
    simp [show V2.shiftGo off (some (some k)) [] = '$' :: natDigits (k + off) from rfl,
      show V2.shiftGo off none [] = ([] : Str) from rfl]
  | cons c2 r =>
    have hc2 : c2.isDigit = false := by simpa [headNotDigit] using ht
    rw [shiftGo_cons, shiftGo_cons]
    simp [hc2]

theorem shift_rpGo : ∀ {c : Str}, condOk c = true → ∀ k off,
    V2.shiftPlaceholders (rpGo c k) off = rpGo c (k + off) := by
  intro c
  induction c with
  | nil => intro _ k off; rfl
  | cons x cs ih =>
    intro h k off
    obtain ⟨hd, hcs, hq⟩ := condOk_cons h
    by_cases hx : x = '?'
    · subst hx
      rw [show rpGo ('?' :: cs) k = '$' :: (natDigits k ++ rpGo cs (k + 1)) by simp [rpGo]]
      rw [show rpGo ('?' :: cs) (k + off) =
          '$' :: (natDigits (k + off) ++ rpGo cs (k + off + 1)) by simp [rpGo]]
      rw [V2.shiftPlaceholders, shift_marker (rpGo_headNotDigit (hq rfl) (k + 1)) off k]
      have := ih hcs (k + 1) off
      rw [V2.shiftPlaceholders] at this
      rw [this]
      have harith : k + 1 + off = k + off + 1 := by omega
      rw [harith]
    · rw [show rpGo (x :: cs) k = x :: rpGo cs k by simp [rpGo, hx]]
      rw [show rpGo (x :: cs) (k + off) = x :: rpGo cs (k + off) by simp [rpGo, hx]]
      rw [V2.shiftPlaceholders, shiftGo_none_pass hd]
      have := ih hcs k off
      rw [V2.shiftPlaceholders] at this
      rw [this]

end Gqbd

namespace Gqbd

/-! ### Lemmas: marker-free strings, joins, splits, fields -/

theorem isDigit_ne {c : Char} (h : c.isDigit = true) :
    c ≠ '$' ∧ c ≠ '?' ∧ c ≠ ',' ∧ c ≠ ' ' := by
  refine ⟨fun hc => ?_, fun hc => ?_, fun hc => ?_, fun hc => ?_⟩ <;>
    (subst hc; exact absurd h (by decide))

theorem natDigits_noMarks (k : Nat) : noMarks (natDigits k) = true := by
  rw [noMarks, List.all_eq_true]
  intro c hc
  have hd := natDigits_isDigit k c hc
  simp only [Bool.and_eq_true, bne_iff_ne, ne_eq]
  exact ⟨(isDigit_ne hd).1, (isDigit_ne hd).2.1⟩

theorem natDigits_noComma (k : Nat) : noComma (natDigits k) = true := by
  rw [noComma, List.all_eq_true]
  intro c hc
  have hd := natDigits_isDigit k c hc
  simp only [bne_iff_ne, ne_eq]
  exact (isDigit_ne hd).2.2.1

theorem noMarks_append {a b : Str} :
    noMarks (a ++ b) = (noMarks a && noMarks b) := by
  simp [noMarks, List.all_append]

theorem noMarks_joinSep {sep : Str} (hsep : noMarks sep = true) :
    ∀ {l : List Str}, (∀ x ∈ l, noMarks x = true) → noMarks (joinSep sep l) = true := by
  intro l
  induction l with
  | nil => intro _; rfl
  | cons x xs ih =>
    intro h
    cases xs with
    | nil => exact h x (by simp)
    | cons y ys =>
      rw [show joinSep sep (x :: y :: ys) = x ++ sep ++ joinSep sep (y :: ys) from rfl]
      rw [noMarks_append, noMarks_append]
      simp [h x (by simp), hsep, ih (fun z hz => h z (by simp [hz]))]

theorem scan_joinSep {sep : Str} (hsep1 : noMarks sep = true)
    (hsep2 : headNotDigit sep = true) (hsep3 : sep ≠ []) :
    ∀ (l : List Str), scanGo none (joinSep sep l) = (l.map (scanGo none)).flatten := by
  intro l
  induction l with
  | nil => rfl
  | cons x xs ih =>
    cases xs with
    | nil => simp [joinSep]
    | cons y ys =>
      have hb : headNotDigit (sep ++ joinSep sep (y :: ys)) = true := by
        cases sep with
        | nil => exact absurd rfl hsep3
        | cons c cs => simpa [headNotDigit] using hsep2
      rw [show joinSep sep (x :: y :: ys) = x ++ (sep ++ joinSep sep (y :: ys)) by
        simp [joinSep]]
      rw [scan_append hb x none, scan_append_noMarks hsep1, ih]
      simp

theorem splitOnDot_noDot {p : Str} (h : noDotStr p = true) : splitOnDot p = [p] := by
  induction p with
  | nil => rfl
  | cons c cs ih =>
    simp only [noDotStr, List.all_cons, Bool.and_eq_true, bne_iff_ne, ne_eq] at h
    rw [show splitOnDot (c :: cs) =
        if c = '.' then [] :: splitOnDot cs
        else (match splitOnDot cs with | [] => [[c]] | t :: ts => (c :: t) :: ts) from rfl]
    rw [if_neg h.1]
    rw [show splitOnDot cs = [cs] from ih (by simpa [noDotStr] using h.2)]

theorem splitOnDot_sep {q : Str} (h : noDotStr q = true) (rest : Str) :
    splitOnDot (q ++ '.' :: rest) = q :: splitOnDot rest := by
  induction q with
  | nil => simp [splitOnDot]
  | cons c cs ih =>
    simp only [noDotStr, List.all_cons, Bool.and_eq_true, bne_iff_ne, ne_eq] at h
    rw [List.cons_append]
    rw [show splitOnDot (c :: (cs ++ '.' :: rest)) =
        if c = '.' then [] :: splitOnDot (cs ++ '.' :: rest)
        else (match splitOnDot (cs ++ '.' :: rest) with
              | [] => [[c]] | t :: ts => (c :: t) :: ts) from rfl]
    rw [if_neg h.1]
    rw [ih (by simpa [noDotStr] using h.2)]

theorem splitCS_noComma {p : Str} (h : noComma p = true) : splitCommaSpace p = [p] := by
  induction p with
  | nil => rfl
  | cons c cs ih =>
    simp only [noComma, List.all_cons, Bool.and_eq_true, bne_iff_ne, ne_eq] at h
    cases cs with
    | nil => rfl
    | cons c2 rest =>
      rw [show splitCommaSpace (c :: c2 :: rest) =
          if c = ',' ∧ c2 = ' ' then [] :: splitCommaSpace rest
          else (match splitCommaSpace (c2 :: rest) with
                | [] => [[c]] | t :: ts => (c :: t) :: ts) from rfl]
      rw [if_neg (fun hcc => h.1 hcc.1)]
      rw [ih (by simpa [noComma] using h.2)]

theorem splitCS_sep {p : Str} (h : noComma p = true) (rest : Str) :
    splitCommaSpace (p ++ ',' :: ' ' :: rest) = p :: splitCommaSpace rest := by
  induction p with
  | nil => simp [splitCommaSpace]
  | cons c cs ih =>
    simp only [noComma, List.all_cons, Bool.and_eq_true, bne_iff_ne, ne_eq] at h
    cases cs with
    | nil =>
      rw [show ([c] : Str) ++ ',' :: ' ' :: rest = c :: ',' :: ' ' :: rest from rfl]
      rw [show splitCommaSpace (c :: ',' :: ' ' :: rest) =
          if c = ',' ∧ (',' : Char) = ' ' then [] :: splitCommaSpace (' ' :: rest)
          else (match splitCommaSpace (',' :: ' ' :: rest) with
                | [] => [[c]] | t :: ts => (c :: t) :: ts) from rfl]
      rw [if_neg (fun hcc => absurd hcc.2 (by decide))]
      rw [show splitCommaSpace (',' :: ' ' :: rest) = [] :: splitCommaSpace rest by
        simp [splitCommaSpace]]
    | cons c2 cs2 =>
      rw [show (c :: c2 :: cs2) ++ ',' :: ' ' :: rest =
          c :: (c2 :: (cs2 ++ ',' :: ' ' :: rest)) from rfl]
      rw [show splitCommaSpace (c :: c2 :: (cs2 ++ ',' :: ' ' :: rest)) =
          if c = ',' ∧ c2 = ' ' then [] :: splitCommaSpace (cs2 ++ ',' :: ' ' :: rest)
          else (match splitCommaSpace (c2 :: (cs2 ++ ',' :: ' ' :: rest)) with
                | [] => [[c]] | t :: ts => (c :: t) :: ts) from rfl]
      rw [if_neg (fun hcc => h.1 hcc.1)]
      rw [show c2 :: (cs2 ++ ',' :: ' ' :: rest) = (c2 :: cs2) ++ ',' :: ' ' :: rest from rfl]
      rw [ih (by simpa [noComma] using h.2)]

theorem fieldsGo_token {t : Str} (ht : noSpaceStr t = true) :
    ∀ {acc : Str}, acc ≠ [] → fieldsGo acc t = [acc.reverse ++ t] := by
  induction t with
  | nil => intro acc hacc; simp [fieldsGo, hacc]
  | cons c cs ih =>
    intro acc hacc
    simp only [noSpaceStr, List.all_cons, Bool.and_eq_true, Bool.not_eq_true'] at ht
    rw [show fieldsGo acc (c :: cs) =
        if isGoSpace c then
          (if acc = [] then fieldsGo [] cs else acc.reverse :: fieldsGo [] cs)
        else fieldsGo (c :: acc) cs from rfl]
    rw [if_neg (by simp [ht.1])]
    rw [ih (by simpa [noSpaceStr] using ht.2) (by simp)]
    simp

theorem fieldsGo_sep {t : Str} (ht : noSpaceStr t = true) (rest : Str) :
    ∀ {acc : Str}, acc ≠ [] →
      fieldsGo acc (t ++ ' ' :: rest) = (acc.reverse ++ t) :: fieldsGo [] rest := by
  induction t with
  | nil =>
    intro acc hacc
    simp [fieldsGo, show isGoSpace ' ' = true from rfl, hacc]
  | cons c cs ih =>
    intro acc hacc
    simp only [noSpaceStr, List.all_cons, Bool.and_eq_true, Bool.not_eq_true'] at ht
    rw [List.cons_append]
    rw [show fieldsGo acc (c :: (cs ++ ' ' :: rest)) =
        if isGoSpace c then
          (if acc = [] then fieldsGo [] (cs ++ ' ' :: rest)
           else acc.reverse :: fieldsGo [] (cs ++ ' ' :: rest))
        else fieldsGo (c :: acc) (cs ++ ' ' :: rest) from rfl]
    rw [if_neg (by simp [ht.1])]
    rw [ih (by simpa [noSpaceStr] using ht.2) (by simp)]
    simp

theorem fields_one {t : Str} (ht : noSpaceStr t = true) (hne : t ≠ []) :
    fields t = [t] := by
  cases t with
  | nil => exact absurd rfl hne
  | cons c cs =>
    simp only [noSpaceStr, List.all_cons, Bool.and_eq_true, Bool.not_eq_true'] at ht
    rw [fields]
    rw [show fieldsGo [] (c :: cs) =
        if isGoSpace c then
          (if ([] : Str) = [] then fieldsGo [] cs else List.reverse [] :: fieldsGo [] cs)
        else fieldsGo [c] cs from rfl]
    rw [if_neg (by simp [ht.1])]
    rw [fieldsGo_token (by simpa [noSpaceStr] using ht.2) (by simp)]
    simp

theorem fields_two {t a : Str} (ht : noSpaceStr t = true) (ha : noSpaceStr a = true)
    (htne : t ≠ []) (hane : a ≠ []) : fields (t ++ ' ' :: a) = [t, a] := by
  cases t with
  | nil => exact absurd rfl htne
  | cons c cs =>
    simp only [noSpaceStr, List.all_cons, Bool.and_eq_true, Bool.not_eq_true'] at ht
    rw [fields, List.cons_append]
    rw [show fieldsGo [] (c :: (cs ++ ' ' :: a)) =
        if isGoSpace c then
          (if ([] : Str) = [] then fieldsGo [] (cs ++ ' ' :: a)
           else List.reverse [] :: fieldsGo [] (cs ++ ' ' :: a))
        else fieldsGo [c] (cs ++ ' ' :: a) from rfl]
    rw [if_neg (by simp [ht.1])]
    rw [fieldsGo_sep (by simpa [noSpaceStr] using ht.2) a (by simp)]
    rw [show fieldsGo ([] : Str) a = fields a from rfl]
    rw [fields_one ha hane]
    simp

theorem fields_three {t x a : Str} (ht : noSpaceStr t = true) (hx : noSpaceStr x = true)
    (ha : noSpaceStr a = true) (htne : t ≠ []) (hxne : x ≠ []) (hane : a ≠ []) :
    fields (t ++ ' ' :: (x ++ ' ' :: a)) = [t, x, a] := by
  cases t with
  | nil => exact absurd rfl htne
  | cons c cs =>
    simp only [noSpaceStr, List.all_cons, Bool.and_eq_true, Bool.not_eq_true'] at ht
    rw [fields, List.cons_append]
    rw [show fieldsGo [] (c :: (cs ++ ' ' :: (x ++ ' ' :: a))) =
        if isGoSpace c then
          (if ([] : Str) = [] then fieldsGo [] (cs ++ ' ' :: (x ++ ' ' :: a))
           else List.reverse [] :: fieldsGo [] (cs ++ ' ' :: (x ++ ' ' :: a)))
        else fieldsGo [c] (cs ++ ' ' :: (x ++ ' ' :: a)) from rfl]
    rw [if_neg (by simp [ht.1])]
    rw [fieldsGo_sep (by simpa [noSpaceStr] using ht.2) (x ++ ' ' :: a) (by simp)]
    have h2 : fieldsGo ([] : Str) (x ++ ' ' :: a) = [x, a] := fields_two hx ha hxne hane
    rw [h2]
    simp

theorem containsChar_true {c : Char} {a b : Str} : containsChar c (a ++ c :: b) = true := by
  simp [containsChar]

theorem containsChar_false {c : Char} {s : Str} (h : ∀ x ∈ s, x ≠ c) :
    containsChar c s = false := by
  simp only [containsChar, List.any_eq_false, beq_iff_eq]
  exact h

theorem noSpace_no_space_char {s : Str} (h : noSpaceStr s = true) :
    ∀ x ∈ s, x ≠ ' ' := by
  intro x hx hc
  subst hc
  rw [noSpaceStr, List.all_eq_true] at h
  have h2 := h ' ' hx
  rw [show isGoSpace ' ' = true from rfl] at h2
  simp at h2

end Gqbd

namespace Gqbd

/-! ### Lemmas: V2 escaping and direction validation -/

theorem replaceAllChar_cons (t : Char) (r : Str) (c : Char) (cs : Str) :
    replaceAllChar t r (c :: cs) =
      if c = t then r ++ replaceAllChar t r cs else c :: replaceAllChar t r cs := rfl

theorem replaceAllChar_noMarks {t : Char} {r s : Str} (hr : noMarks r = true)
    (hs : noMarks s = true) : noMarks (replaceAllChar t r s) = true := by
  induction s with
  | nil => rfl
  | cons c cs ih =>
    simp only [noMarks, List.all_cons, Bool.and_eq_true, bne_iff_ne, ne_eq] at hs
    rw [replaceAllChar_cons]
    by_cases hc : c = t
    · rw [if_pos hc, noMarks_append, hr, ih (by simpa [noMarks] using hs.2)]
      rfl
    · rw [if_neg hc]
      have h2 := ih (by simpa [noMarks] using hs.2)
      simp only [noMarks, List.all_cons, Bool.and_eq_true, bne_iff_ne, ne_eq]
      exact ⟨hs.1, by simpa [noMarks] using h2⟩

/-- For the three supported dialects, `V2.EscapeIdentifier` never fails and
its output of a marker-free name is marker-free. -/
theorem escV2_ok {db : Str} (hdb : db = PostgreSQL ∨ db = MariaDB ∨ db = Mysql)
    {name : Str} (hn : noMarks name = true) :
    V2.EscapeIdentifier db name = ((V2.EscapeIdentifier db name).1, none) ∧
      noMarks (V2.EscapeIdentifier db name).1 = true := by
  by_cases hstar : name = str "*"
  · subst hstar
    exact ⟨by simp [V2.EscapeIdentifier], hn⟩
  · rcases hdb with h | h | h <;> subst h
    · rw [show V2.EscapeIdentifier PostgreSQL name =
          ('"' :: replaceAllChar '"' (str "\"\"") name ++ ['"'], none) by
        simp [V2.EscapeIdentifier, hstar]]
      refine ⟨rfl, ?_⟩
      have h2 := @replaceAllChar_noMarks '"' (str "\"\"") name (by decide) hn
      simp only [noMarks, List.all_cons, List.all_append, Bool.and_eq_true] at h2 ⊢
      simp [h2]
    · rw [show V2.EscapeIdentifier MariaDB name =
          ('`' :: replaceAllChar '`' (str "``") name ++ ['`'], none) by
        simp [V2.EscapeIdentifier, hstar]; decide]
      refine ⟨rfl, ?_⟩
      have h2 := @replaceAllChar_noMarks '`' (str "``") name (by decide) hn
      simp only [noMarks, List.all_cons, List.all_append, Bool.and_eq_true] at h2 ⊢
      simp [h2]
    · rw [show V2.EscapeIdentifier Mysql name =
          ('`' :: replaceAllChar '`' (str "``") name ++ ['`'], none) by
        simp [V2.EscapeIdentifier, hstar]; decide]
      refine ⟨rfl, ?_⟩
      have h2 := @replaceAllChar_noMarks '`' (str "``") name (by decide) hn
      simp only [noMarks, List.all_cons, List.all_append, Bool.and_eq_true] at h2 ⊢
      simp [h2]

theorem validateDirection_cases (d : Str) :
    ValidateDirection d = str "ASC" ∨ ValidateDirection d = str "DESC" := by
  rw [ValidateDirection]
  by_cases h : toUpperGo d = str "ASC" ∨ toUpperGo d = str "DESC"
  · rcases h with h | h <;> simp [h]
  · simp [h]

theorem validateDirection_noMarks (d : Str) : noMarks (ValidateDirection d) = true := by
  rcases validateDirection_cases d with h | h <;> rw [h] <;> decide

theorem expectedToks_zero (db : Str) : expectedToks db s 0 = [] := by
  by_cases h : db = PostgreSQL <;> simp [expectedToks, h]

theorem expectedToks_append (db : Str) (n k : Nat) :
    expectedToks db 1 n ++ expectedToks db (n + 1) k = expectedToks db 1 (n + k) := by
  by_cases h : db = PostgreSQL
  · simp only [expectedToks, h, if_true, ← List.map_append]
    congr 1
    have h2 := List.range'_append 1 n k 1
    simpa [Nat.add_comm] using h2
  · simp [expectedToks, h, ← List.replicate_add]

theorem scan_singlePH (db : Str) (k : Nat) :
    scanGo none (singlePH db k) = expectedToks db k 1 := by
  by_cases h : db = PostgreSQL
  · rw [singlePH, if_pos h, expectedToks, if_pos h]
    have h2 := @scan_marker [] rfl k
    rw [List.append_nil] at h2
    rw [h2]
    rfl
  · rw [singlePH, if_neg h, expectedToks, if_neg h]
    rfl

theorem genPH_parts (db : Str) (k : Nat) :
    GeneratePlaceholders db k 2 = singlePH db k ++ ',' :: ' ' :: singlePH db (k + 1) := by
  by_cases h : db = PostgreSQL <;>
    simp [GeneratePlaceholders, singlePH, h, List.range, joinSep, List.range'] <;> rfl

theorem scan_genPH (db : Str) (k : Nat) : ∀ cnt,
    scanGo none (GeneratePlaceholders db k cnt) = expectedToks db k cnt := by
  have hsep1 : noMarks (str ", ") = true := by decide
  have hsep2 : headNotDigit (str ", ") = true := by decide
  have hsep3 : (str ", ") ≠ [] := by decide
  intro cnt
  rw [GeneratePlaceholders, scan_joinSep hsep1 hsep2 hsep3]
  by_cases h : db = PostgreSQL
  · simp only [h, if_true, expectedToks, List.map_map]
    have hone : ∀ i : Nat, scanGo none ('$' :: natDigits (k + i)) = [PTok.d (k + i)] := by
      intro i
      have h2 := @scan_marker [] rfl (k + i)
      rw [List.append_nil] at h2
      rw [h2]
      rfl
    rw [show List.range' k cnt = (List.range cnt).map (k + ·) from by
      rw [List.range'_eq_map_range]]
    rw [List.map_map]
    induction cnt with
    | zero => rfl
    | succ m ihm =>
      rw [List.range_succ]
      simp only [List.map_append, List.flatten_append, ihm]
      simp [hone]
  · simp only [h, if_false, expectedToks]
    induction cnt with
    | zero => rfl
    | succ m ihm =>
      rw [List.range_succ]
      simp only [List.map_append, List.flatten_append, ihm]
      have h1 : scanGo none (str "?") = [PTok.q] := rfl
      simp only [h1, List.map_cons, List.map_nil, List.flatten_cons, List.flatten_nil,
        List.append_nil]
      rw [← List.replicate_succ']

end Gqbd

namespace Gqbd

/-! ### Lemmas: the V2 SELECT placeholder invariant, step by step -/

theorem scan_rpV2 {db : Str} (hdb : db = PostgreSQL ∨ db = MariaDB) {cond : Str}
    (hc : condOk cond = true) (k : Nat) :
    scanGo none (V2.ReplacePlaceholders db cond k) = expectedToks db k (countQ cond) := by
  rcases hdb with h | h <;> subst h
  · rw [V2.ReplacePlaceholders, if_neg (by decide), expectedToks, if_pos rfl]
    exact scan_rpGo hc k
  · rw [V2.ReplacePlaceholders, if_pos rfl, expectedToks, if_neg (by decide)]
    exact scan_noDollar (condOk_noDollar hc)

theorem inv_where {db : Str} (hdb : db = PostgreSQL ∨ db = MariaDB) {qb : QueryBuilder}
    (hinv : InvV2 db qb) {cond : Str} {args : List Val} (hc : condOk cond = true)
    (hlen : countQ cond = args.length) (hhav : qb.having = []) :
    InvV2 db (V2.Where cond args qb) ∧ (V2.Where cond args qb).having = [] := by
  obtain ⟨he, hdbt, hop, htoks, htab, hcols, hgrp, hord, hjoins⟩ := hinv
  rw [V2.Where, he]
  rw [stateToks, hhav] at htoks
  simp only [List.map_nil, List.flatten_nil, List.append_nil] at htoks
  refine ⟨⟨by simp [he], by simp [hdbt], by simp [hop], ?_, by simpa using htab,
    by simpa using hcols, by simpa using hgrp, by simpa using hord, by simpa using hjoins⟩,
    by simpa using hhav⟩
  rw [stateToks]
  simp only [hhav, List.map_nil, List.flatten_nil, List.append_nil, List.map_append,
    List.flatten_append, List.map_cons, List.flatten_cons]
  rw [htoks, hdbt, scan_rpV2 hdb hc, hlen]
  simp only [List.length_append]
  exact expectedToks_append db qb.args.length args.length

theorem inv_having {db : Str} (hdb : db = PostgreSQL ∨ db = MariaDB) {qb : QueryBuilder}
    (hinv : InvV2 db qb) {cond : Str} {args : List Val} (hc : condOk cond = true)
    (hlen : countQ cond = args.length) :
    InvV2 db (V2.Having cond args qb) := by
  obtain ⟨he, hdbt, hop, htoks, htab, hcols, hgrp, hord, hjoins⟩ := hinv
  rw [V2.Having, he]
  refine ⟨by simp [he], by simp [hdbt], by simp [hop], ?_, by simpa using htab,
    by simpa using hcols, by simpa using hgrp, by simpa using hord, by simpa using hjoins⟩
  rw [stateToks]
  simp only [List.map_append, List.flatten_append, List.map_cons, List.flatten_cons,
    List.map_nil, List.flatten_nil, List.append_nil]
  rw [← List.append_assoc]
  rw [show (qb.conditions.map fun c => scanGo none c).flatten ++
      (qb.having.map fun c => scanGo none c).flatten = stateToks qb from rfl]
  rw [htoks, hdbt, scan_rpV2 hdb hc, hlen]
  simp only [List.length_append]
  exact expectedToks_append db qb.args.length args.length

theorem inv_whereIn {db : Str} (hdb : db = PostgreSQL ∨ db = MariaDB) {qb : QueryBuilder}
    (hinv : InvV2 db qb) {col : Str} {vals : List Val} (hcol : noMarks col = true)
    (hhav : qb.having = []) :
    InvV2 db (V2.WhereIn col vals qb) ∧ (V2.WhereIn col vals qb).having = [] := by
  have hdb3 : db = PostgreSQL ∨ db = MariaDB ∨ db = Mysql := hdb.imp id Or.inl
  obtain ⟨he, hdbt, hop, htoks, htab, hcols, hgrp, hord, hjoins⟩ := hinv
  rw [V2.WhereIn, he, hdbt, (escV2_ok hdb3 hcol).1]
  rw [stateToks, hhav] at htoks
  simp only [List.map_nil, List.flatten_nil, List.append_nil] at htoks
  refine ⟨⟨by simp [he], by simp [hdbt], by simp [hop], ?_, by simpa using htab,
    by simpa using hcols, by simpa using hgrp, by simpa using hord, by simpa using hjoins⟩,
    by simpa using hhav⟩
  rw [stateToks]
  simp only [hhav, List.map_nil, List.flatten_nil, List.append_nil, List.map_append,
    List.flatten_append, List.map_cons, List.flatten_cons]
  rw [htoks]
  have hfrag : scanGo none ((V2.EscapeIdentifier db col).1 ++ str " IN (" ++
      GeneratePlaceholders db (qb.args.length + 1) vals.length ++ str ")") =
      expectedToks db (qb.args.length + 1) vals.length := by
    rw [show (V2.EscapeIdentifier db col).1 ++ str " IN (" ++
        GeneratePlaceholders db (qb.args.length + 1) vals.length ++ str ")" =
        ((V2.EscapeIdentifier db col).1 ++ str " IN (") ++
        (GeneratePlaceholders db (qb.args.length + 1) vals.length ++ str ")") from by
      simp [List.append_assoc]]
    rw [scan_append_noMarks (by
      rw [noMarks_append, (escV2_ok hdb3 hcol).2]
      decide)]
    rw [scan_append (by decide) _ none]
    rw [scan_genPH]
    rw [show scanGo none (str ")") = [] from rfl, List.append_nil]
  rw [hfrag]
  simp only [List.length_append]
  exact expectedToks_append db qb.args.length vals.length

theorem inv_whereBetween {db : Str} (hdb : db = PostgreSQL ∨ db = MariaDB)
    {qb : QueryBuilder} (hinv : InvV2 db qb) {col : Str} {s t : Val}
    (hcol : noMarks col = true) (hhav : qb.having = []) :
    InvV2 db (V2.WhereBetween col s t qb) ∧ (V2.WhereBetween col s t qb).having = [] := by
  have hdb3 : db = PostgreSQL ∨ db = MariaDB ∨ db = Mysql := hdb.imp id Or.inl
  obtain ⟨he, hdbt, hop, htoks, htab, hcols, hgrp, hord, hjoins⟩ := hinv
  rw [V2.WhereBetween, he, hdbt, (escV2_ok hdb3 hcol).1]
  rw [stateToks, hhav] at htoks
  simp only [List.map_nil, List.flatten_nil, List.append_nil] at htoks
  refine ⟨⟨by simp [he], by simp [hdbt], by simp [hop], ?_, by simpa using htab,
    by simpa using hcols, by simpa using hgrp, by simpa using hord, by simpa using hjoins⟩,
    by simpa using hhav⟩
  rw [stateToks]
  simp only [hhav, List.map_nil, List.flatten_nil, List.append_nil, List.map_append,
    List.flatten_append, List.map_cons, List.flatten_cons]
  rw [htoks]
  have hfrag : scanGo none (str " BETWEEN " ++ (V2.EscapeIdentifier db col).1 ++
      str " AND " ++ GeneratePlaceholders db (qb.args.length + 1) 2) =
      expectedToks db (qb.args.length + 1) 2 := by
    rw [show str " BETWEEN " ++ (V2.EscapeIdentifier db col).1 ++ str " AND " ++
        GeneratePlaceholders db (qb.args.length + 1) 2 =
        (str " BETWEEN " ++ (V2.EscapeIdentifier db col).1 ++ str " AND ") ++
        GeneratePlaceholders db (qb.args.length + 1) 2 from by simp [List.append_assoc]]
    rw [scan_append_noMarks (by
      rw [noMarks_append, noMarks_append, (escV2_ok hdb3 hcol).2]
      decide)]
    rw [scan_genPH]
  rw [hfrag]
  simp only [List.length_append, List.length_cons, List.length_nil]
  exact expectedToks_append db qb.args.length 2

theorem limit_unfold (n : Int) (qb : QueryBuilder) (he : qb.err = none) :
    V2.Limit n qb = { qb with limit := n } := by
  cases qb
  subst he
  rfl

theorem offset_unfold (n : Int) (qb : QueryBuilder) (he : qb.err = none) :
    V2.Offset n qb = { qb with offset := n } := by
  cases qb
  subst he
  rfl

theorem distinct_unfold (qb : QueryBuilder) (he : qb.err = none) :
    V2.Distinct qb = { qb with distinct := true } := by
  cases qb
  subst he
  rfl

theorem orderBy_unfold (col dir : Str) (al : Option (List Str)) (qb : QueryBuilder)
    (he : qb.err = none) :
    V2.OrderBy col dir al qb =
      (match V2.EscapeIdentifier qb.dbType
          (match al with
           | some allowed => if col ∈ allowed then col else str "id"
           | none => col) with
       | (_, some e) => { qb with err := some e }
       | (safeCol, none) =>
         { qb with orderBy := safeCol ++ str " " ++ ValidateDirection dir }) := by
  cases qb
  subst he
  rfl

theorem groupByGo_spec {db : Str} (hdb3 : db = PostgreSQL ∨ db = MariaDB ∨ db = Mysql) :
    ∀ (cols : List Str) (qb : QueryBuilder), qb.dbType = db → qb.err = none →
      (∀ c ∈ cols, noMarks c = true) →
      ∃ g2, V2.groupByGo cols qb = { qb with groupBy := qb.groupBy ++ g2 } ∧
        (∀ x ∈ g2, noMarks x = true) := by
  intro cols
  induction cols with
  | nil =>
    intro qb _ _ _
    exact ⟨[], by simp [V2.groupByGo], by simp⟩
  | cons c cs ih =>
    intro qb hdbt he hcl
    have hesc := (escV2_ok hdb3 (hcl c (by simp))).1
    rw [← hdbt] at hesc
    obtain ⟨g2, heq, hg2⟩ :=
      ih { qb with groupBy := qb.groupBy ++ [(V2.EscapeIdentifier qb.dbType c).1] }
        hdbt he (fun x hx => hcl x (by simp [hx]))
    refine ⟨(V2.EscapeIdentifier qb.dbType c).1 :: g2, ?_, ?_⟩
    · rw [show V2.groupByGo (c :: cs) qb =
          (match V2.EscapeIdentifier qb.dbType c with
           | (_, some e) => { qb with err := some e }
           | (sc, none) => V2.groupByGo cs { qb with groupBy := qb.groupBy ++ [sc] })
          from rfl]
      rw [hesc]
      exact heq.trans (by congr 1; simp [List.append_assoc])
    · intro x hx
      rcases List.mem_cons.mp hx with h | h
      · subst h
        have h2 := (escV2_ok hdb3 (hcl c (by simp))).2
        rw [← hdbt] at h2
        exact h2
      · exact hg2 x h

theorem inv_groupBy {db : Str} (hdb : db = PostgreSQL ∨ db = MariaDB) {qb : QueryBuilder}
    (hinv : InvV2 db qb) {cols : List Str} (hcl : ∀ c ∈ cols, noMarks c = true) :
    InvV2 db (V2.GroupBy cols qb) ∧ (V2.GroupBy cols qb).having = qb.having := by
  have hdb3 : db = PostgreSQL ∨ db = MariaDB ∨ db = Mysql := hdb.imp id Or.inl
  obtain ⟨he, hdbt, hop, htoks, htab, hcols, hgrp, hord, hjoins⟩ := hinv
  rw [show V2.GroupBy cols qb = V2.groupByGo cols qb from by rw [V2.GroupBy, he]]
  obtain ⟨g2, heq, hg2⟩ := groupByGo_spec hdb3 cols qb hdbt he hcl
  rw [heq]
  refine ⟨⟨by simp [he], by simp [hdbt], by simp [hop], ?_, by simpa using htab,
    by simpa using hcols, ?_, by simpa using hord, by simpa using hjoins⟩, by simp⟩
  · rw [show stateToks { qb with groupBy := qb.groupBy ++ g2 } = stateToks qb from rfl]
    simpa using htoks
  · intro g hgmem
    simp only at hgmem
    rcases List.mem_append.mp hgmem with h | h
    · exact hgrp g h
    · exact hg2 g h

theorem inv_orderBy {db : Str} (hdb : db = PostgreSQL ∨ db = MariaDB) {qb : QueryBuilder}
    (hinv : InvV2 db qb) {col dir : Str} {al : Option (List Str)}
    (hcol : noMarks col = true) :
    InvV2 db (V2.OrderBy col dir al qb) ∧ (V2.OrderBy col dir al qb).having = qb.having := by
  have hdb3 : db = PostgreSQL ∨ db = MariaDB ∨ db = Mysql := hdb.imp id Or.inl
  obtain ⟨he, hdbt, hop, htoks, htab, hcols, hgrp, hord, hjoins⟩ := hinv
  have hused : noMarks (match al with
      | some allowed => if col ∈ allowed then col else str "id"
      | none => col) = true := by
    cases al with
    | none => exact hcol
    | some allowed =>
      by_cases hmem : col ∈ allowed
      · simpa [hmem] using hcol
      · simp only [hmem, if_false]
        decide
  rw [orderBy_unfold col dir al qb he]
  generalize hu : (match al with
      | some allowed => if col ∈ allowed then col else str "id"
      | none => col) = used
  rw [hu] at hused
  have hesc := (escV2_ok hdb3 hused).1
  have hnm := (escV2_ok hdb3 hused).2
  rw [← hdbt] at hesc hnm
  rw [hesc]
  refine ⟨⟨he, hdbt, hop, htoks, htab, hcols, hgrp, ?_, hjoins⟩, rfl⟩
  show noMarks ((V2.EscapeIdentifier qb.dbType used).1 ++ str " " ++
    ValidateDirection dir) = true
  rw [noMarks_append, noMarks_append, hnm, validateDirection_noMarks]
  decide

theorem inv_limit {db : Str} {qb : QueryBuilder} (hinv : InvV2 db qb) (n : Int) :
    InvV2 db (V2.Limit n qb) ∧ (V2.Limit n qb).having = qb.having := by
  obtain ⟨he, hdbt, hop, htoks, htab, hcols, hgrp, hord, hjoins⟩ := hinv
  rw [limit_unfold n qb he]
  exact ⟨⟨he, hdbt, hop, htoks, htab, hcols, hgrp, hord, hjoins⟩, rfl⟩

theorem inv_offset {db : Str} {qb : QueryBuilder} (hinv : InvV2 db qb) (n : Int) :
    InvV2 db (V2.Offset n qb) ∧ (V2.Offset n qb).having = qb.having := by
  obtain ⟨he, hdbt, hop, htoks, htab, hcols, hgrp, hord, hjoins⟩ := hinv
  rw [offset_unfold n qb he]
  exact ⟨⟨he, hdbt, hop, htoks, htab, hcols, hgrp, hord, hjoins⟩, rfl⟩

theorem inv_distinct {db : Str} {qb : QueryBuilder} (hinv : InvV2 db qb) :
    InvV2 db (V2.Distinct qb) ∧ (V2.Distinct qb).having = qb.having := by
  obtain ⟨he, hdbt, hop, htoks, htab, hcols, hgrp, hord, hjoins⟩ := hinv
  rw [distinct_unfold qb he]
  exact ⟨⟨he, hdbt, hop, htoks, htab, hcols, hgrp, hord, hjoins⟩, rfl⟩

end Gqbd

namespace Gqbd

/-! ### Lemmas: assembling the V2 SELECT rendering -/

theorem ite_app_else {c : Prop} [Decidable c] (x y : Str) :
    (if c then x else x ++ y) = x ++ (if c then [] else y) := by
  by_cases h : c <;> simp [h]

theorem ite_app_then {c : Prop} [Decidable c] (x y : Str) :
    (if c then x ++ y else x) = x ++ (if c then y else []) := by
  by_cases h : c <;> simp [h]

theorem ite_flat (l : List Str) :
    (if l = [] then ([] : List PTok) else (l.map fun x => scanGo none x).flatten) =
      (l.map fun x => scanGo none x).flatten := by
  by_cases h : l = [] <;> simp [h]

theorem headNotDigit_seq {x y : Str} (hx : x = [] ∨ ∃ r, x = ' ' :: r)
    (hy : headNotDigit y = true) : headNotDigit (x ++ y) = true := by
  rcases hx with h | ⟨r, h⟩ <;> subst h
  · simpa using hy
  · rfl

theorem spacey_ite {c : Prop} [Decidable c] {a b : Str}
    (ha : a = [] ∨ ∃ r, a = ' ' :: r) (hb : b = [] ∨ ∃ r, b = ' ' :: r) :
    (if c then a else b) = [] ∨ ∃ r, (if c then a else b) = ' ' :: r := by
  by_cases h : c <;> simp [h, ha, hb]

theorem scan_q (t : Str) : scanGo none ('?' :: t) = PTok.q :: scanGo none t := by
  rw [scanGo_cons]
  simp

theorem scan_opt_frag {pre : Str} (hpre : noMarks pre = true) (l : List Str)
    {b : Str} (hb : headNotDigit b = true) (c : Prop) [Decidable c] :
    scanGo none ((if c then [] else pre ++ joinSep (str " AND ") l) ++ b) =
      (if c then [] else (l.map fun x => scanGo none x).flatten) ++ scanGo none b := by
  by_cases h : c
  · simp [h]
  · simp only [h, if_false]
    rw [scan_append hb (pre ++ joinSep (str " AND ") l) none]
    rw [scan_append_noMarks hpre]
    rw [scan_joinSep (by decide) (by decide) (by decide)]

theorem scan_ph_piece {db : Str} (k : Nat) (t : Str) (ht : headNotDigit t = true)
    (c : Prop) [Decidable c] {w wq : Str} (hw : noMarks w = true)
    (hwq : wq = w ++ str "?") :
    scanGo none ((if c then
        (if db = PostgreSQL then w ++ '$' :: natDigits k else wq) else []) ++ t) =
      expectedToks db k (if c then 1 else 0) ++ scanGo none t := by
  by_cases h : c
  · simp only [h, if_true]
    by_cases hdb : db = PostgreSQL
    · simp only [hdb, if_true]
      rw [show (w ++ '$' :: natDigits k) ++ t = w ++ ('$' :: (natDigits k ++ t)) by simp]
      rw [scan_append_noMarks hw, scan_marker ht k]
      simp [expectedToks, hdb, List.range']
    · simp only [hdb, if_false]
      rw [hwq]
      rw [show (w ++ str "?") ++ t = w ++ ('?' :: t) by simp [str]]
      rw [scan_append_noMarks hw, scan_q]
      simp [expectedToks, hdb]
  · simp [h, expectedToks_zero]

theorem expectedToks_append3 (db : Str) (n i1 i2 : Nat) :
    expectedToks db 1 n ++ (expectedToks db (n + 1) i1 ++ expectedToks db (n + i1 + 1) i2) =
      expectedToks db 1 (n + i1 + i2) := by
  rw [← List.append_assoc, expectedToks_append db n i1, expectedToks_append db (n + i1) i2]

end Gqbd

namespace Gqbd

/-! ### Lemmas: the full SELECT tail and `buildSelect` -/

theorem headNotDigit_append_hd {x y : Str} (hx : headNotDigit x = true)
    (hxe : x = [] → headNotDigit y = true) : headNotDigit (x ++ y) = true := by
  cases x with
  | nil => simpa using hxe rfl
  | cons c r => simpa [headNotDigit] using hx

theorem scan_ph_last {db : Str} (k : Nat) (c : Prop) [Decidable c] {w wq : Str}
    (hw : noMarks w = true) (hwq : wq = w ++ str "?") :
    scanGo none (if c then
        (if db = PostgreSQL then w ++ '$' :: natDigits k else wq) else []) =
      expectedToks db k (if c then 1 else 0) := by
  have h := @scan_ph_piece db k [] rfl c _ w wq hw hwq
  rw [show scanGo none ([] : Str) = ([] : List PTok) from rfl, List.append_nil,
    List.append_nil] at h
  exact h

theorem scan_select_tail (db : Str) (conds gb hav : List Str) (ob : Str)
    (lim off : Int) (ags : List Val) (hob : noMarks ob = true)
    (hgb : ∀ g ∈ gb, noMarks g = true) :
    scanGo none
      ((if conds = [] then [] else str " WHERE " ++ joinSep (str " AND ") conds) ++
       ((if gb = [] then [] else str " GROUP BY " ++ joinSep (str ", ") gb) ++
        ((if hav = [] then [] else str " HAVING " ++ joinSep (str " AND ") hav) ++
         ((if ob = [] then [] else str " ORDER BY " ++ ob) ++
          ((if lim > 0 then
              (if db = PostgreSQL then str " LIMIT " ++ '$' :: natDigits (ags.length + 1)
               else str " LIMIT ?") else []) ++
           (if off > 0 then
              (if db = PostgreSQL then str " OFFSET " ++
                '$' :: natDigits ((if lim > 0 then ags ++ [Val.i lim] else ags).length + 1)
               else str " OFFSET ?") else [])))))) =
      (conds.map fun x => scanGo none x).flatten ++
        ((hav.map fun x => scanGo none x).flatten ++
          (expectedToks db (ags.length + 1) (if lim > 0 then 1 else 0) ++
           expectedToks db (ags.length + (if lim > 0 then 1 else 0) + 1)
             (if off > 0 then 1 else 0))) := by
  have hidx : ((if lim > 0 then ags ++ [Val.i lim] else ags).length + 1) =
      ags.length + (if lim > 0 then 1 else 0) + 1 := by
    by_cases h : lim > 0 <;> simp [h]
  rw [hidx]
  have hFP : headNotDigit (if off > 0 then
      (if db = PostgreSQL then str " OFFSET " ++
        '$' :: natDigits (ags.length + (if lim > 0 then 1 else 0) + 1)
       else str " OFFSET ?") else []) = true := by
    by_cases h : off > 0
    · rw [if_pos h]
      by_cases h2 : db = PostgreSQL
      · rw [if_pos h2]; rfl
      · rw [if_neg h2]; rfl
    · rw [if_neg h]; rfl
  have hLP : headNotDigit (if lim > 0 then
      (if db = PostgreSQL then str " LIMIT " ++ '$' :: natDigits (ags.length + 1)
       else str " LIMIT ?") else []) = true := by
    by_cases h : lim > 0
    · rw [if_pos h]
      by_cases h2 : db = PostgreSQL
      · rw [if_pos h2]; rfl
      · rw [if_neg h2]; rfl
    · rw [if_neg h]; rfl
  have hOP : headNotDigit (if ob = [] then [] else str " ORDER BY " ++ ob) = true := by
    by_cases h : ob = []
    · rw [if_pos h]; rfl
    · rw [if_neg h]; rfl
  have hHP : headNotDigit (if hav = [] then []
      else str " HAVING " ++ joinSep (str " AND ") hav) = true := by
    by_cases h : hav = []
    · rw [if_pos h]; rfl
    · rw [if_neg h]; rfl
  have hGP : headNotDigit (if gb = [] then []
      else str " GROUP BY " ++ joinSep (str ", ") gb) = true := by
    by_cases h : gb = []
    · rw [if_pos h]; rfl
    · rw [if_neg h]; rfl
  have hS2 := headNotDigit_append_hd hLP (fun _ => hFP)
  have hS3 := headNotDigit_append_hd hOP (fun _ => hS2)
  have hS4 := headNotDigit_append_hd hHP (fun _ => hS3)
  have hS5 := headNotDigit_append_hd hGP (fun _ => hS4)
  have hOnm : noMarks (if ob = [] then [] else str " ORDER BY " ++ ob) = true := by
    by_cases h : ob = []
    · rw [if_pos h]; rfl
    · rw [if_neg h, noMarks_append, hob]
      decide
  have hGnm : noMarks (if gb = [] then []
      else str " GROUP BY " ++ joinSep (str ", ") gb) = true := by
    by_cases h : gb = []
    · rw [if_pos h]; rfl
    · rw [if_neg h, noMarks_append, noMarks_joinSep (by decide) hgb]
      decide
  rw [scan_opt_frag (by decide) conds hS5 (conds = [])]
  rw [ite_flat conds]
  rw [scan_append_noMarks hGnm]
  rw [scan_opt_frag (by decide) hav hS3 (hav = [])]
  rw [ite_flat hav]
  rw [scan_append_noMarks hOnm]
  rw [scan_ph_piece (ags.length + 1) _ hFP (lim > 0) (by decide) (by decide)]
  rw [scan_ph_last (ags.length + (if lim > 0 then 1 else 0) + 1) (off > 0)
    (by decide) (by decide)]

end Gqbd

namespace Gqbd

/-! ### Lemmas: running chains of configuration calls -/

theorem applyOp_phase1 {db : Str} (hdb : db = PostgreSQL ∨ db = MariaDB)
    {qb : QueryBuilder} (hinv : InvV2 db qb) (hhav : qb.having = []) {op : BOp}
    (hcl : cleanOp op = true) (hnh : isHavingOp op = false) :
    InvV2 db (applyOp qb op) ∧ (applyOp qb op).having = [] := by
  cases op with
  | whereC cond args =>
    simp only [cleanOp, Bool.and_eq_true, beq_iff_eq] at hcl
    exact inv_where hdb hinv hcl.1 hcl.2 hhav
  | whereInC col vals =>
    exact inv_whereIn hdb hinv (by simpa [cleanOp] using hcl) hhav
  | whereBetweenC col s t =>
    exact inv_whereBetween hdb hinv (by simpa [cleanOp] using hcl) hhav
  | havingC cond args => simp [isHavingOp] at hnh
  | groupByC cols =>
    have h := inv_groupBy hdb hinv (by
      simpa [cleanOp, List.all_eq_true] using hcl)
    exact ⟨h.1, h.2.trans hhav⟩
  | orderByC col dir al =>
    have h := @inv_orderBy db hdb qb hinv col dir al (by simpa [cleanOp] using hcl)
    exact ⟨h.1, h.2.trans hhav⟩
  | limitC n =>
    have h := inv_limit hinv n
    exact ⟨h.1, h.2.trans hhav⟩
  | offsetC n =>
    have h := inv_offset hinv n
    exact ⟨h.1, h.2.trans hhav⟩
  | distinctC =>
    have h := inv_distinct hinv
    exact ⟨h.1, h.2.trans hhav⟩

theorem applyOp_phase2 {db : Str} (hdb : db = PostgreSQL ∨ db = MariaDB)
    {qb : QueryBuilder} (hinv : InvV2 db qb) {op : BOp}
    (hcl : cleanOp op = true) (hnc : isCondOp op = false) :
    InvV2 db (applyOp qb op) := by
  cases op with
  | whereC cond args => simp [isCondOp] at hnc
  | whereInC col vals => simp [isCondOp] at hnc
  | whereBetweenC col s t => simp [isCondOp] at hnc
  | havingC cond args =>
    simp only [cleanOp, Bool.and_eq_true, beq_iff_eq] at hcl
    exact inv_having hdb hinv hcl.1 hcl.2
  | groupByC cols =>
    exact (inv_groupBy hdb hinv (by simpa [cleanOp, List.all_eq_true] using hcl)).1
  | orderByC col dir al =>
    exact (@inv_orderBy db hdb qb hinv col dir al (by simpa [cleanOp] using hcl)).1
  | limitC n => exact (inv_limit hinv n).1
  | offsetC n => exact (inv_offset hinv n).1
  | distinctC => exact (inv_distinct hinv).1

theorem run_phase1 {db : Str} (hdb : db = PostgreSQL ∨ db = MariaDB) :
    ∀ (ops : List BOp) {qb : QueryBuilder}, InvV2 db qb → qb.having = [] →
      (∀ o ∈ ops, cleanOp o = true ∧ isHavingOp o = false) →
      InvV2 db (run qb ops) ∧ (run qb ops).having = [] := by
  intro ops
  induction ops with
  | nil => intro qb h1 h2 _; exact ⟨h1, h2⟩
  | cons o os ih =>
    intro qb h1 h2 h3
    have hstep := applyOp_phase1 hdb h1 h2 (h3 o (by simp)).1 (h3 o (by simp)).2
    exact ih hstep.1 hstep.2 (fun x hx => h3 x (by simp [hx]))

theorem run_phase2 {db : Str} (hdb : db = PostgreSQL ∨ db = MariaDB) :
    ∀ (ops : List BOp) {qb : QueryBuilder}, InvV2 db qb →
      (∀ o ∈ ops, cleanOp o = true ∧ isCondOp o = false) →
      InvV2 db (run qb ops) := by
  intro ops
  induction ops with
  | nil => intro qb h1 _; exact h1
  | cons o os ih =>
    intro qb h1 h3
    have hstep := applyOp_phase2 hdb h1 (h3 o (by simp)).1 (h3 o (by simp)).2
    exact ih hstep (fun x hx => h3 x (by simp [hx]))

theorem run_append (qb : QueryBuilder) (ops1 ops2 : List BOp) :
    run qb (ops1 ++ ops2) = run (run qb ops1) ops2 := by
  simp [run, List.foldl_append]

end Gqbd

namespace Gqbd

/-! ### Lemmas: factory invariant and the rendered SELECT -/

theorem pair_eta_none {α : Type} {p : α × Option Str} (h : p.2 = none) : p = (p.1, none) := by
  obtain ⟨a, b⟩ := p
  cases h
  rfl

theorem escapeColumnsV2_ok {db : Str} (hdb3 : db = PostgreSQL ∨ db = MariaDB ∨ db = Mysql) :
    ∀ (cols : List Str), (∀ c ∈ cols, noMarks c = true) →
      (V2.escapeColumns db cols).2 = none ∧
      (∀ x ∈ (V2.escapeColumns db cols).1, noMarks x = true) := by
  intro cols
  induction cols with
  | nil =>
    intro _
    refine ⟨rfl, ?_⟩
    intro x hx
    simp [V2.escapeColumns] at hx
  | cons c cs ih =>
    intro h
    have hesc := (escV2_ok hdb3 (h c (by simp))).1
    obtain ⟨ih1, ih2⟩ := ih (fun x hx => h x (by simp [hx]))
    have hstep : V2.escapeColumns db (c :: cs) =
        ((V2.EscapeIdentifier db c).1 :: (V2.escapeColumns db cs).1,
         (V2.escapeColumns db cs).2) := by
      rw [show V2.escapeColumns db (c :: cs) = (match V2.EscapeIdentifier db c with
          | (_, some e) => ([], some e)
          | (sc, none) =>
            match V2.escapeColumns db cs with
            | (rest, e) => (sc :: rest, e)) from rfl]
      rw [hesc]
    rw [hstep]
    refine ⟨ih1, ?_⟩
    intro x hx
    rcases List.mem_cons.mp hx with hx2 | hx2
    · subst hx2
      exact (escV2_ok hdb3 (h c (by simp))).2
    · exact ih2 x hx2

theorem newQB_spec {db : Str} (hdb3 : db = PostgreSQL ∨ db = MariaDB ∨ db = Mysql)
    {table : Str} (htab : noMarks table = true) {cols : List Str}
    (hcols : ∀ c ∈ cols, noMarks c = true) :
    V2.NewQueryBuilder db table cols =
      { V2.emptyQB db with
        table := (V2.EscapeIdentifier db table).1,
        columns := if (V2.escapeColumns db cols).1 = [] then [str "*"]
                   else (V2.escapeColumns db cols).1 } := by
  have h2 : V2.escapeColumns db cols = ((V2.escapeColumns db cols).1, none) :=
    pair_eta_none (escapeColumnsV2_ok hdb3 cols hcols).1
  unfold V2.NewQueryBuilder
  rw [(escV2_ok hdb3 htab).1]
  rw [h2]

theorem buildSelectF_inv {db : Str} (hdb : db = PostgreSQL ∨ db = MariaDB)
    {table : Str} (htab : noMarks table = true) {cols : List Str}
    (hcols : ∀ c ∈ cols, noMarks c = true) :
    InvV2 db (V2.BuildSelect db table cols) ∧
      (V2.BuildSelect db table cols).having = [] := by
  have hdb3 : db = PostgreSQL ∨ db = MariaDB ∨ db = Mysql := hdb.imp id Or.inl
  rw [show V2.BuildSelect db table cols =
      { V2.NewQueryBuilder db table cols with op := str "SELECT" } from rfl]
  rw [newQB_spec hdb3 htab hcols]
  refine ⟨⟨rfl, rfl, rfl, (expectedToks_zero db).symm,
    (escV2_ok hdb3 htab).2, ?_, ?_, rfl, rfl⟩, rfl⟩
  · show ∀ c ∈ (if (V2.escapeColumns db cols).1 = [] then [str "*"]
        else (V2.escapeColumns db cols).1), noMarks c = true
    intro c hc
    by_cases h : (V2.escapeColumns db cols).1 = []
    · rw [if_pos h] at hc
      rw [List.mem_singleton] at hc
      subst hc
      decide
    · rw [if_neg h] at hc
      exact (escapeColumnsV2_ok hdb3 cols hcols).2 c hc
  · intro g hg
    exact absurd hg (List.not_mem_nil g)

theorem expectedToks_length (db : Str) (s k : Nat) :
    (expectedToks db s k).length = k := by
  by_cases h : db = PostgreSQL <;> simp [expectedToks, h]

theorem ite_app_else2 {c : Prop} [Decidable c] (x y z : Str) :
    (if c then x else x ++ y ++ z) = x ++ (if c then [] else y ++ z) := by
  by_cases h : c <;> simp [h, List.append_assoc]

theorem buildSelect_spec {db : Str} (_hdb : db = PostgreSQL ∨ db = MariaDB)
    {qb : QueryBuilder} (hinv : InvV2 db qb) :
    (V2.buildSelect qb).1.2.2 = none ∧
    (V2.buildSelect qb).1.2.1.length = qb.args.length +
      (if qb.limit > 0 then 1 else 0) + (if qb.offset > 0 then 1 else 0) ∧
    scanGo none (V2.buildSelect qb).1.1 =
      expectedToks db 1 ((V2.buildSelect qb).1.2.1.length) := by
  obtain ⟨he, hdbt, hop, htoks, htab, hcols, hgrp, hord, hjoins⟩ := hinv
  have hargs8 : (V2.buildSelect qb).1.2.1.length = qb.args.length +
      (if qb.limit > 0 then 1 else 0) + (if qb.offset > 0 then 1 else 0) := by
    show (if qb.offset > 0 then
        (if qb.limit > 0 then qb.args ++ [Val.i qb.limit] else qb.args) ++ [Val.i qb.offset]
      else (if qb.limit > 0 then qb.args ++ [Val.i qb.limit] else qb.args)).length = _
    by_cases hl : qb.limit > 0 <;> by_cases ho : qb.offset > 0 <;> simp [hl, ho]
  have hDIST : noMarks (if qb.distinct = true then str "DISTINCT " else []) = true := by
    by_cases h : qb.distinct = true
    · rw [if_pos h]; decide
    · rw [if_neg h]; rfl
  refine ⟨rfl, hargs8, ?_⟩
  rw [hargs8]
  simp only [V2.buildSelect, hdbt, hjoins, eq_self_iff_true, if_true]
  simp only [ite_app_else2, ite_app_then]
  simp only [List.append_assoc]
  rw [scan_append_noMarks (show noMarks (str "SELECT ") = true from by decide)]
  rw [scan_append_noMarks hDIST]
  rw [scan_append_noMarks (noMarks_joinSep (by decide) hcols)]
  rw [scan_append_noMarks (show noMarks (str " FROM ") = true from by decide)]
  rw [scan_append_noMarks htab]
  rw [scan_select_tail db qb.conditions qb.groupBy qb.having qb.orderBy qb.limit
    qb.offset qb.args hord hgrp]
  rw [← List.append_assoc]
  rw [show (qb.conditions.map fun x => scanGo none x).flatten ++
      (qb.having.map fun x => scanGo none x).flatten = stateToks qb from rfl]
  rw [htoks]
  exact expectedToks_append3 db qb.args.length (if qb.limit > 0 then 1 else 0)
    (if qb.offset > 0 then 1 else 0)

theorem build_select_unfold {qb : QueryBuilder} (he : qb.err = none)
    (hop : qb.op = str "SELECT") : V2.Build qb = V2.buildSelect qb := by
  cases qb
  subst he
  subst hop
  simp [V2.Build]

end Gqbd

namespace Gqbd

theorem placeholderToks_eq (s : Str) : placeholderToks s = scanGo none s := rfl

/-- C1 (amended): on the V2 builder, for PostgreSQL or MariaDB, a SELECT
configured from marker-free identifiers by a chain of well-formed calls in
which every `Having` call comes after all `Where`/`WhereIn`/`WhereBetween`
calls builds with no error, and the placeholder markers of the rendered
string, read left to right, are exactly `$1..$n` (PostgreSQL) or `n` copies
of `?` (MariaDB) where `n` is the length of the returned argument list: the
count matches and the Nth marker binds the Nth argument.  The phase
restriction is necessary; interleaving `Having` between `Where` calls
breaks the textual order (see the counterexample). -/
theorem c1_placeholder_count_order (db table : Str) (cols : List Str)
    (ops1 ops2 : List BOp)
    (hdb : db = PostgreSQL ∨ db = MariaDB)
    (htab : noMarks table = true) (hcols : ∀ c ∈ cols, noMarks c = true)
    (h1 : ∀ o ∈ ops1, cleanOp o = true ∧ isHavingOp o = false)
    (h2 : ∀ o ∈ ops2, cleanOp o = true ∧ isCondOp o = false) :
    (V2.Build (run (V2.BuildSelect db table cols) (ops1 ++ ops2))).1.2.2 = none ∧
    (placeholderToks
        (V2.Build (run (V2.BuildSelect db table cols) (ops1 ++ ops2))).1.1).length =
      (V2.Build (run (V2.BuildSelect db table cols) (ops1 ++ ops2))).1.2.1.length ∧
    placeholderToks (V2.Build (run (V2.BuildSelect db table cols) (ops1 ++ ops2))).1.1 =
      expectedToks db 1
        (V2.Build (run (V2.BuildSelect db table cols) (ops1 ++ ops2))).1.2.1.length := by
  obtain ⟨hbase, hhav⟩ := buildSelectF_inv hdb htab hcols
  obtain ⟨hinv1, hhav1⟩ := run_phase1 hdb ops1 hbase hhav h1
  have hinv2 := run_phase2 hdb ops2 hinv1 h2
  rw [run_append]
  rw [build_select_unfold hinv2.1 hinv2.2.2.1]
  obtain ⟨e0, e1, e2⟩ := buildSelect_spec hdb hinv2
  refine ⟨e0, ?_, ?_⟩
  · rw [placeholderToks_eq, e2, expectedToks_length]
  · rw [placeholderToks_eq]
    exact e2

/-- Witness for C1: a PostgreSQL SELECT with one `Where`, then a `Having`
and a `Limit`, satisfies the hypotheses and the conclusion. -/
theorem c1_placeholder_count_order_witness :
    (V2.Build (run (V2.BuildSelect PostgreSQL (str "t") [str "a"])
      ([BOp.whereC (str "a = ?") [Val.i 1]] ++
       [BOp.havingC (str "COUNT(a) > ?") [Val.i 2], BOp.limitC 5]))).1.2.2 = none ∧
    (placeholderToks
        (V2.Build (run (V2.BuildSelect PostgreSQL (str "t") [str "a"])
          ([BOp.whereC (str "a = ?") [Val.i 1]] ++
           [BOp.havingC (str "COUNT(a) > ?") [Val.i 2], BOp.limitC 5]))).1.1).length =
      (V2.Build (run (V2.BuildSelect PostgreSQL (str "t") [str "a"])
        ([BOp.whereC (str "a = ?") [Val.i 1]] ++
         [BOp.havingC (str "COUNT(a) > ?") [Val.i 2], BOp.limitC 5]))).1.2.1.length ∧
    placeholderToks
        (V2.Build (run (V2.BuildSelect PostgreSQL (str "t") [str "a"])
          ([BOp.whereC (str "a = ?") [Val.i 1]] ++
           [BOp.havingC (str "COUNT(a) > ?") [Val.i 2], BOp.limitC 5]))).1.1 =
      expectedToks PostgreSQL 1
        (V2.Build (run (V2.BuildSelect PostgreSQL (str "t") [str "a"])
          ([BOp.whereC (str "a = ?") [Val.i 1]] ++
           [BOp.havingC (str "COUNT(a) > ?") [Val.i 2], BOp.limitC 5]))).1.2.1.length :=
  c1_placeholder_count_order PostgreSQL (str "t") [str "a"]
    [BOp.whereC (str "a = ?") [Val.i 1]]
    [BOp.havingC (str "COUNT(a) > ?") [Val.i 2], BOp.limitC 5]
    (Or.inl rfl) (by decide) (by decide) (by decide) (by decide)

/-- Counterexample for the literal C1: `Where`, then `Having`, then another
`Where` on PostgreSQL renders `... WHERE a = $1 AND b = $3 HAVING h = $2`,
whose markers in left-to-right textual order are `$1, $3, $2`: the count
still matches the three bound arguments, but the 2nd marker is `$3`, so the
Nth marker does not bind the Nth element of the argument list. -/
theorem c1_counterexample :
    placeholderToks (V2.Build (V2.Where (str "b = ?") [Val.i 2]
      (V2.Having (str "h = ?") [Val.i 9]
        (V2.Where (str "a = ?") [Val.i 1]
          (V2.BuildSelect PostgreSQL (str "t") [str "c"]))))).1.1 =
      [PTok.d 1, PTok.d 3, PTok.d 2] ∧
    (V2.Build (V2.Where (str "b = ?") [Val.i 2]
      (V2.Having (str "h = ?") [Val.i 9]
        (V2.Where (str "a = ?") [Val.i 1]
          (V2.BuildSelect PostgreSQL (str "t") [str "c"]))))).1.2.1 =
      [Val.i 1, Val.i 9, Val.i 2] ∧
    placeholderToks (V2.Build (V2.Where (str "b = ?") [Val.i 2]
      (V2.Having (str "h = ?") [Val.i 9]
        (V2.Where (str "a = ?") [Val.i 1]
          (V2.BuildSelect PostgreSQL (str "t") [str "c"]))))).1.1 ≠
      expectedToks PostgreSQL 1 3 := by
  refine ⟨by decide, by decide, by decide⟩

end Gqbd

namespace Gqbd

/-! ### Lemmas: UPDATE assembly (C2) -/

theorem escV2_pg_ok (name : Str) :
    V2.EscapeIdentifier PostgreSQL name =
      ((V2.EscapeIdentifier PostgreSQL name).1, none) := by
  by_cases h : name = str "*"
  · simp [V2.EscapeIdentifier, h]
  · simp [V2.EscapeIdentifier, h]

theorem updateParts_pg_ok : ∀ (l : List (Str × Val)) (i : Nat),
    V2.updateParts PostgreSQL l i = (pgSetClauses l i, l.map Prod.snd, none) := by
  intro l
  induction l with
  | nil => intro i; rfl
  | cons p ps ih =>
    intro i
    obtain ⟨col, v⟩ := p
    rw [show V2.updateParts PostgreSQL ((col, v) :: ps) i =
        (match V2.EscapeIdentifier PostgreSQL col with
         | (_, some e) => ([], [], some e)
         | (sc, none) =>
           match V2.updateParts PostgreSQL ps (i + 1) with
           | (clauses, args, e) =>
             ((sc ++ str " = " ++
               (if PostgreSQL = PostgreSQL then '$' :: natDigits i else str "?")) :: clauses,
              v :: args, e)) from rfl]
    rw [escV2_pg_ok col, ih (i + 1)]
    rfl

/-- C2: for a PostgreSQL UPDATE configured as
`BuildUpdate.Set(payload).Where(cond, cargs)`, the rendered argument list
is the payload values (in payload order) followed by the WHERE-bound
values, and the WHERE fragment of the query is the condition renumbered to
start at `payload.length + 1` — for a two-entry payload and `"c = ?"`, the
WHERE placeholder reads `$3`, not `$1`. -/
theorem c2_update_ordering (table cond : Str) (l : List (Str × Val)) (cargs : List Val)
    (htab : noMarks table = true) (hcond : condOk cond = true) :
    (V2.Build (V2.Where cond cargs (V2.Set (some l)
        (V2.BuildUpdate PostgreSQL table)))).1 =
      (str "UPDATE " ++ (V2.EscapeIdentifier PostgreSQL table).1 ++ str " SET " ++
         joinSep (str ", ") (pgSetClauses l 1) ++ str " WHERE " ++
         rpGo cond (l.length + 1),
       l.map Prod.snd ++ cargs, none) := by
  have hqb0 : V2.BuildUpdate PostgreSQL table =
      { V2.emptyQB PostgreSQL with
        table := (V2.EscapeIdentifier PostgreSQL table).1,
        columns := [str "*"], op := str "UPDATE" } := by
    rw [show V2.BuildUpdate PostgreSQL table =
        { V2.NewQueryBuilder PostgreSQL table [] with op := str "UPDATE" } from rfl]
    rw [newQB_spec (Or.inl rfl) htab (fun c hc => absurd hc (List.not_mem_nil c))]
    rfl
  have hqb2 : V2.Where cond cargs (V2.Set (some l) (V2.BuildUpdate PostgreSQL table)) =
      { V2.emptyQB PostgreSQL with
        table := (V2.EscapeIdentifier PostgreSQL table).1,
        columns := [str "*"], op := str "UPDATE",
        data := some l, conditions := [rpGo cond 1], args := cargs } := by
    rw [hqb0]
    rfl
  rw [hqb2]
  show V2.buildUpdate
      { V2.emptyQB PostgreSQL with
        table := (V2.EscapeIdentifier PostgreSQL table).1,
        columns := [str "*"], op := str "UPDATE",
        data := some l, conditions := [rpGo cond 1], args := cargs } = _
  simp only [V2.buildUpdate, V2.emptyQB, if_true]
  rw [updateParts_pg_ok l 1]
  show (str "UPDATE " ++ (V2.EscapeIdentifier PostgreSQL table).1 ++ str " SET " ++
        joinSep (str ", ") (pgSetClauses l 1) ++ str " WHERE " ++
        V2.shiftPlaceholders (rpGo cond 1) l.length,
       List.map Prod.snd l ++ cargs, (none : Option Str)) = _
  rw [shift_rpGo hcond 1 l.length]
  rw [Nat.add_comm 1 l.length]

/-- Witness for C2: `Set({a:1, b:2}).Where("c = ?", 3)` on PostgreSQL
renders `UPDATE "t" SET "a" = $1, "b" = $2 WHERE c = $3` with argument
list `[1, 2, 3]`. -/
theorem c2_update_ordering_witness :
    (V2.Build (V2.Where (str "c = ?") [Val.i 3] (V2.Set
        (some [(str "a", Val.i 1), (str "b", Val.i 2)])
        (V2.BuildUpdate PostgreSQL (str "t"))))).1 =
      (str "UPDATE \"t\" SET \"a\" = $1, \"b\" = $2 WHERE c = $3",
       [Val.i 1, Val.i 2, Val.i 3], none) :=
  (c2_update_ordering (str "t") (str "c = ?")
    [(str "a", Val.i 1), (str "b", Val.i 2)] [Val.i 3]
    (by decide) (by decide)).trans (by decide)

end Gqbd

namespace Gqbd

/-- C3: in the gqbd.go:591-606 variant, placeholder translation is the
identity for every condition string under both MySQL-family dialects
(`mariadb` and `mysql`), and the chain `Where("x = ?", 5)` stores the
fragment `x = $1` for PostgreSQL and the untouched `x = ?` for both
MySQL-family dialects, always binding `[5]`.  The gqbd.go:1250-1265
variant falsifies the sentence: it treats only `mariadb` as identity, so
the same Mysql chain stores `x = $1`. -/
theorem c3_dialect_translation :
    (∀ (cond : Str) (k : Nat),
        V1.ReplacePlaceholders MariaDB cond k = cond ∧
        V1.ReplacePlaceholders Mysql cond k = cond) ∧
    (V1.Where (str "x = ?") [Val.i 5]
        (V1.BuildSelect PostgreSQL (str "t") [str "a"])).conditions = [str "x = $1"] ∧
    (V1.Where (str "x = ?") [Val.i 5]
        (V1.BuildSelect MariaDB (str "t") [str "a"])).conditions = [str "x = ?"] ∧
    (V1.Where (str "x = ?") [Val.i 5]
        (V1.BuildSelect Mysql (str "t") [str "a"])).conditions = [str "x = ?"] ∧
    (V1.Where (str "x = ?") [Val.i 5]
        (V1.BuildSelect PostgreSQL (str "t") [str "a"])).args = [Val.i 5] ∧
    (V1.Where (str "x = ?") [Val.i 5]
        (V1.BuildSelect Mysql (str "t") [str "a"])).args = [Val.i 5] ∧
    (V2.Where (str "x = ?") [Val.i 5]
        (V2.BuildSelect Mysql (str "t") [str "a"])).conditions = [str "x = $1"] ∧
    V2.ReplacePlaceholders Mysql (str "x = ?") 1 ≠ str "x = ?" := by
  refine ⟨?_, by decide, by decide, by decide, by decide, by decide, by decide, by decide⟩
  intro cond k
  refine ⟨?_, ?_⟩
  · show (if MariaDB = MariaDB ∨ MariaDB = Mysql then cond else rpGo cond k) = cond
    rw [if_pos (Or.inl rfl)]
  · show (if Mysql = MariaDB ∨ Mysql = Mysql then cond else rpGo cond k) = cond
    rw [if_pos (Or.inr rfl)]

end Gqbd

namespace Gqbd

/-- C4 (amended): once the stored error is non-nil, every chained call
that consults it — `Distinct`, `Aggregate`, the three joins,
`Where`/`WhereIn`/`WhereBetween`, `Having`, `GroupBy`, `OrderBy`,
`Limit`, `Offset` — returns the builder unchanged, and `Build` returns
that stored error with an empty query string and no arguments.  The
blanket sentence is not true of `Values`, `Set` and `Returning`, which
never consult the stored error and overwrite it on an operation
mismatch (see the counterexample). -/
theorem c4_error_short_circuit (qb : QueryBuilder) (e : Str)
    (he : qb.err = some e) (cond col dir fn tbl onC : Str)
    (ags vals : List Val) (a b : Val) (cols : List Str)
    (al : Option (List Str)) (n : Int) :
    V2.Distinct qb = qb ∧ V2.Aggregate fn col qb = qb ∧
    V2.LeftJoin tbl onC qb = qb ∧ V2.InnerJoin tbl onC qb = qb ∧
    V2.RightJoin tbl onC qb = qb ∧ V2.Where cond ags qb = qb ∧
    V2.WhereIn col vals qb = qb ∧ V2.WhereBetween col a b qb = qb ∧
    V2.Having cond ags qb = qb ∧ V2.GroupBy cols qb = qb ∧
    V2.OrderBy col dir al qb = qb ∧ V2.Limit n qb = qb ∧
    V2.Offset n qb = qb ∧
    V2.Build qb = (([], [], some e), qb) := by
  cases qb
  subst he
  exact ⟨rfl, rfl, rfl, rfl, rfl, rfl, rfl, rfl, rfl, rfl, rfl, rfl, rfl, rfl⟩

/-- Witness for C4: a PostgreSQL builder with a stored error is left
unchanged by the error-checking calls and `Build` surfaces the error. -/
theorem c4_error_short_circuit_witness :
    V2.Distinct { V2.emptyQB PostgreSQL with err := some (str "boom") } =
      { V2.emptyQB PostgreSQL with err := some (str "boom") } ∧
    V2.Aggregate (str "COUNT") (str "c")
        { V2.emptyQB PostgreSQL with err := some (str "boom") } =
      { V2.emptyQB PostgreSQL with err := some (str "boom") } ∧
    V2.LeftJoin (str "j") (str "o")
        { V2.emptyQB PostgreSQL with err := some (str "boom") } =
      { V2.emptyQB PostgreSQL with err := some (str "boom") } ∧
    V2.InnerJoin (str "j") (str "o")
        { V2.emptyQB PostgreSQL with err := some (str "boom") } =
      { V2.emptyQB PostgreSQL with err := some (str "boom") } ∧
    V2.RightJoin (str "j") (str "o")
        { V2.emptyQB PostgreSQL with err := some (str "boom") } =
      { V2.emptyQB PostgreSQL with err := some (str "boom") } ∧
    V2.Where (str "c = ?") [Val.i 1]
        { V2.emptyQB PostgreSQL with err := some (str "boom") } =
      { V2.emptyQB PostgreSQL with err := some (str "boom") } ∧
    V2.WhereIn (str "c") [Val.i 1]
        { V2.emptyQB PostgreSQL with err := some (str "boom") } =
      { V2.emptyQB PostgreSQL with err := some (str "boom") } ∧
    V2.WhereBetween (str "c") (Val.i 1) (Val.i 2)
        { V2.emptyQB PostgreSQL with err := some (str "boom") } =
      { V2.emptyQB PostgreSQL with err := some (str "boom") } ∧
    V2.Having (str "c > ?") [Val.i 1]
        { V2.emptyQB PostgreSQL with err := some (str "boom") } =
      { V2.emptyQB PostgreSQL with err := some (str "boom") } ∧
    V2.GroupBy [str "c"]
        { V2.emptyQB PostgreSQL with err := some (str "boom") } =
      { V2.emptyQB PostgreSQL with err := some (str "boom") } ∧
    V2.OrderBy (str "c") (str "ASC") none
        { V2.emptyQB PostgreSQL with err := some (str "boom") } =
      { V2.emptyQB PostgreSQL with err := some (str "boom") } ∧
    V2.Limit 5 { V2.emptyQB PostgreSQL with err := some (str "boom") } =
      { V2.emptyQB PostgreSQL with err := some (str "boom") } ∧
    V2.Offset 5 { V2.emptyQB PostgreSQL with err := some (str "boom") } =
      { V2.emptyQB PostgreSQL with err := some (str "boom") } ∧
    V2.Build { V2.emptyQB PostgreSQL with err := some (str "boom") } =
      (([], [], some (str "boom")),
       { V2.emptyQB PostgreSQL with err := some (str "boom") }) :=
  c4_error_short_circuit { V2.emptyQB PostgreSQL with err := some (str "boom") }
    (str "boom") rfl (str "c = ?") (str "c") (str "ASC") (str "COUNT")
    (str "j") (str "o") [Val.i 1] [Val.i 1] (Val.i 1) (Val.i 2) [str "c"] none 5

/-- Counterexample for the literal C4: on a SELECT builder, `Values` sets
an operation-mismatch error, but the subsequent `Set` call does not
short-circuit — it overwrites the stored error — so `Build` returns the
later `Set()` error, not the original first error. -/
theorem c4_counterexample :
    (V2.Values (some []) (V2.BuildSelect PostgreSQL (str "t") [])).err =
      some (str "Values() can only be used with INSERT operation") ∧
    V2.Set (some []) (V2.Values (some []) (V2.BuildSelect PostgreSQL (str "t") [])) ≠
      V2.Values (some []) (V2.BuildSelect PostgreSQL (str "t") []) ∧
    (V2.Build (V2.Set (some [])
        (V2.Values (some []) (V2.BuildSelect PostgreSQL (str "t") [])))).1.2.2 =
      some (str "Set() can only be used with UPDATE operation") := by
  exact ⟨by decide, by decide, by decide⟩

end Gqbd

namespace Gqbd

/-- C5 (amended): the no-payload check tests only whether the payload map
is nil — for every error-free INSERT builder whose `data` was never set
(`none`), `Build` returns the `no data provided for INSERT` error and no
query, and likewise an UPDATE builder returns `no data provided for
UPDATE`.  A payload that is present but empty does not trigger the check
(see the counterexample). -/
theorem c5_no_data_error (qb qb2 : QueryBuilder)
    (he : qb.err = none) (hop : qb.op = str "INSERT") (hd : qb.data = none)
    (he2 : qb2.err = none) (hop2 : qb2.op = str "UPDATE") (hd2 : qb2.data = none) :
    V2.Build qb = (([], [], some (str "no data provided for INSERT")), qb) ∧
    V2.Build qb2 = (([], [], some (str "no data provided for UPDATE")), qb2) := by
  constructor
  · cases qb
    subst he hop hd
    rfl
  · cases qb2
    subst he2 hop2 hd2
    rfl

/-- Witness for C5: fresh `BuildInsert`/`BuildUpdate` builders with no
payload build to the two no-data errors. -/
theorem c5_no_data_error_witness :
    V2.Build (V2.BuildInsert PostgreSQL (str "t")) =
      (([], [], some (str "no data provided for INSERT")),
       V2.BuildInsert PostgreSQL (str "t")) ∧
    V2.Build (V2.BuildUpdate PostgreSQL (str "t")) =
      (([], [], some (str "no data provided for UPDATE")),
       V2.BuildUpdate PostgreSQL (str "t")) :=
  c5_no_data_error (V2.BuildInsert PostgreSQL (str "t"))
    (V2.BuildUpdate PostgreSQL (str "t"))
    (by decide) (by decide) (by decide) (by decide) (by decide) (by decide)

/-- Counterexample for the literal C5: a payload that is set but empty
(`Values({})`) passes the nil-only check — `Build` returns the degenerate
query `INSERT INTO "t" () VALUES ()` with no error instead of
`NoDataForInsert`; likewise `Set({})` renders `UPDATE "t" SET ` without
error. -/
theorem c5_counterexample :
    (V2.Build (V2.Values (some []) (V2.BuildInsert PostgreSQL (str "t")))).1 =
      (str "INSERT INTO \"t\" () VALUES ()", [], none) ∧
    (V2.Build (V2.Set (some []) (V2.BuildUpdate PostgreSQL (str "t")))).1.2.2 = none := by
  exact ⟨by decide, by decide⟩

end Gqbd

namespace Gqbd

theorem replaceAllChar_flatten (t : Char) (r : Str) : ∀ s : Str,
    replaceAllChar t r s = (s.map fun c => if c = t then r else [c]).flatten := by
  intro s
  induction s with
  | nil => rfl
  | cons c cs ih =>
    show (if c = t then r ++ replaceAllChar t r cs else c :: replaceAllChar t r cs) = _
    by_cases h : c = t
    · simp [h, ih]
    · simp [h, ih]

/-- C6 (amended): in the gqbd.go:1215-1226 variant, `*` passes through
unchanged for every dialect, and every other name — the empty string
included — is wrapped whole in the dialect quote character with embedded
occurrences of that character doubled: PostgreSQL wraps in `"` doubling
`"`, both MySQL-family dialects wrap in backtick doubling backtick;
`users` escapes to `"users"` and `a"b` to `"a""b"`.  Contrary to the
spec sentence, this variant has no empty-identifier error (see the
counterexample; the gqbd.go:510-556 variant has the empty check but does
not double quotes). -/
theorem c6_escape_identifier (name : Str) (hn : name ≠ str "*") :
    (∀ db : Str, V2.EscapeIdentifier db (str "*") = (str "*", none)) ∧
    V2.EscapeIdentifier PostgreSQL name =
      ('"' :: (name.map fun c => if c = '"' then str "\"\"" else [c]).flatten ++ ['"'],
       none) ∧
    V2.EscapeIdentifier MariaDB name =
      ('`' :: (name.map fun c => if c = '`' then str "``" else [c]).flatten ++ ['`'],
       none) ∧
    V2.EscapeIdentifier Mysql name =
      ('`' :: (name.map fun c => if c = '`' then str "``" else [c]).flatten ++ ['`'],
       none) ∧
    V2.EscapeIdentifier PostgreSQL (str "users") = (str "\"users\"", none) ∧
    V2.EscapeIdentifier PostgreSQL (str "a\"b") = (str "\"a\"\"b\"", none) := by
  refine ⟨?_, ?_, ?_, ?_, by decide, by decide⟩
  · intro db
    unfold V2.EscapeIdentifier
    rw [if_pos rfl]
  · unfold V2.EscapeIdentifier
    rw [if_neg hn, if_pos rfl, replaceAllChar_flatten]
  · unfold V2.EscapeIdentifier
    rw [if_neg hn, if_neg (by decide), if_pos (by decide), replaceAllChar_flatten]
  · unfold V2.EscapeIdentifier
    rw [if_neg hn, if_neg (by decide), if_pos (by decide), replaceAllChar_flatten]

/-- Witness for C6: the name `users` is not `*` and the escapes evaluate
as stated. -/
theorem c6_escape_identifier_witness :
    (∀ db : Str, V2.EscapeIdentifier db (str "*") = (str "*", none)) ∧
    V2.EscapeIdentifier PostgreSQL (str "users") =
      ('"' :: ((str "users").map fun c => if c = '"' then str "\"\"" else [c]).flatten ++
        ['"'], none) ∧
    V2.EscapeIdentifier MariaDB (str "users") =
      ('`' :: ((str "users").map fun c => if c = '`' then str "``" else [c]).flatten ++
        ['`'], none) ∧
    V2.EscapeIdentifier Mysql (str "users") =
      ('`' :: ((str "users").map fun c => if c = '`' then str "``" else [c]).flatten ++
        ['`'], none) ∧
    V2.EscapeIdentifier PostgreSQL (str "users") = (str "\"users\"", none) ∧
    V2.EscapeIdentifier PostgreSQL (str "a\"b") = (str "\"a\"\"b\"", none) :=
  c6_escape_identifier (str "users") (by decide)

/-- Counterexample for the literal C6: the gqbd.go:1215-1226 variant does
not reject the empty identifier — it returns the bare quote pair with no
error. -/
theorem c6_counterexample :
    V2.EscapeIdentifier PostgreSQL [] = (str "\"\"", none) ∧
    V2.EscapeIdentifier MariaDB [] = (str "``", none) := by
  exact ⟨by decide, by decide⟩

end Gqbd

namespace Gqbd

theorem ne_of_length_ne {α : Type} {l1 l2 : List α}
    (h : l1.length ≠ l2.length) : l1 ≠ l2 :=
  fun hco => h (congrArg List.length hco)

theorem escIdName_ok (db name : Str) :
    V1.escapeIdentifierName db name = ((V1.escapeIdentifierName db name).1, none) := by
  unfold V1.escapeIdentifierName
  by_cases h1 : db = PostgreSQL
  · rw [if_pos h1]
    rfl
  · rw [if_neg h1]
    by_cases h2 : db = MariaDB ∨ db = Mysql
    · rw [if_pos h2]
      rfl
    · rw [if_neg h2]

/-- C7: in the gqbd.go:510-556 variant, for every dialect: a name of shape
`table x alias` whose middle token uppercases to `AS` escapes only the
leading table token and rejoins as `escapedTable AS alias`; a two-token
`table alias` rejoins as `escapedTable alias` with the alias verbatim; and
a space-free `qualifier.column` name escapes only the column portion,
keeps the qualifier verbatim and rejoins with the dot. -/
theorem c7_alias_escaping (db t x a q c : Str)
    (ht : noSpaceStr t = true) (hx : noSpaceStr x = true) (ha : noSpaceStr a = true)
    (htne : t ≠ []) (hxne : x ≠ []) (hane : a ≠ [])
    (hAS : toUpperGo x = str "AS")
    (hqs : noSpaceStr q = true) (hcs : noSpaceStr c = true)
    (hqd : noDotStr q = true) (hcd : noDotStr c = true)
    (hqne : q ≠ []) (hcne : c ≠ []) :
    V1.EscapeIdentifier db (t ++ ' ' :: (x ++ ' ' :: a)) =
      ((V1.escapeIdentifierName db t).1 ++ str " AS " ++ a, none) ∧
    V1.EscapeIdentifier db (t ++ ' ' :: a) =
      ((V1.escapeIdentifierName db t).1 ++ str " " ++ a, none) ∧
    V1.EscapeIdentifier db (q ++ '.' :: c) =
      (q ++ '.' :: (V1.escapeIdentifierName db c).1, none) := by
  have hlt : 0 < t.length := List.length_pos.mpr htne
  have hlq : 0 < q.length := List.length_pos.mpr hqne
  have hlc : 0 < c.length := List.length_pos.mpr hcne
  refine ⟨?_, ?_, ?_⟩
  · have hstar : t ++ ' ' :: (x ++ ' ' :: a) ≠ str "*" := by
      apply ne_of_length_ne
      rw [show (str "*").length = 1 from rfl]
      simp only [List.length_append, List.length_cons]
      omega
    have hnil : t ++ ' ' :: (x ++ ' ' :: a) ≠ [] := by
      apply ne_of_length_ne
      rw [show ([] : Str).length = 0 from rfl]
      simp only [List.length_append, List.length_cons]
      omega
    have e1 := fields_three ht hx ha htne hxne hane
    simp only [V1.EscapeIdentifier, if_neg hstar, if_neg hnil, containsChar_true,
      eq_self_iff_true, if_true, e1, hAS]
    rw [escIdName_ok db t]
  · have hstar : t ++ ' ' :: a ≠ str "*" := by
      apply ne_of_length_ne
      rw [show (str "*").length = 1 from rfl]
      simp only [List.length_append, List.length_cons]
      omega
    have hnil : t ++ ' ' :: a ≠ [] := by
      apply ne_of_length_ne
      rw [show ([] : Str).length = 0 from rfl]
      simp only [List.length_append, List.length_cons]
      omega
    have e1 := fields_two ht ha htne hane
    simp only [V1.EscapeIdentifier, if_neg hstar, if_neg hnil, containsChar_true,
      eq_self_iff_true, if_true, e1]
    rw [escIdName_ok db t]
  · have hstar : q ++ '.' :: c ≠ str "*" := by
      apply ne_of_length_ne
      rw [show (str "*").length = 1 from rfl]
      simp only [List.length_append, List.length_cons]
      omega
    have hnil : q ++ '.' :: c ≠ [] := by
      apply ne_of_length_ne
      rw [show ([] : Str).length = 0 from rfl]
      simp only [List.length_append, List.length_cons]
      omega
    have hspn : ¬(containsChar ' ' (q ++ '.' :: c) = true) := by
      rw [containsChar_false]
      · exact Bool.false_ne_true
      · intro ch hch
        rcases List.mem_append.mp hch with h | h
        · exact noSpace_no_space_char hqs ch h
        · rcases List.mem_cons.mp h with h2 | h2
          · subst h2; decide
          · exact noSpace_no_space_char hcs ch h2
    have e1 : splitOnDot (q ++ '.' :: c) = [q, c] := by
      rw [splitOnDot_sep hqd, splitOnDot_noDot hcd]
    simp only [V1.EscapeIdentifier, if_neg hstar, if_neg hnil, if_neg hspn,
      containsChar_true, eq_self_iff_true, if_true, e1]
    rw [escIdName_ok db c]

/-- Witness for C7: `t as al`, `t al` and `q.col` on PostgreSQL. -/
theorem c7_alias_escaping_witness :
    V1.EscapeIdentifier PostgreSQL (str "t" ++ ' ' :: (str "as" ++ ' ' :: str "al")) =
      ((V1.escapeIdentifierName PostgreSQL (str "t")).1 ++ str " AS " ++ str "al",
       none) ∧
    V1.EscapeIdentifier PostgreSQL (str "t" ++ ' ' :: str "al") =
      ((V1.escapeIdentifierName PostgreSQL (str "t")).1 ++ str " " ++ str "al",
       none) ∧
    V1.EscapeIdentifier PostgreSQL (str "q" ++ '.' :: str "col") =
      (str "q" ++ '.' :: (V1.escapeIdentifierName PostgreSQL (str "col")).1, none) :=
  c7_alias_escaping PostgreSQL (str "t") (str "as") (str "al") (str "q") (str "col")
    (by decide) (by decide) (by decide) (by decide) (by decide) (by decide)
    (by decide) (by decide) (by decide) (by decide) (by decide) (by decide) (by decide)

end Gqbd

namespace Gqbd

/-- C8: `OrderBy` uppercases the requested direction and keeps it only if
the result is exactly `ASC` or `DESC`, forcing `DESC` otherwise; with a
non-nil allow-list, a column not in the list is replaced by the fixed
fallback `id`; the stored order-by state is always
`escapedColumn direction`, and a later `OrderBy` overwrites an earlier
one (illustrated concretely in the last conjunct). -/
theorem c8_orderby (qb : QueryBuilder) (col dir : Str) (al : List Str)
    (he : qb.err = none)
    (hescCol : (V2.EscapeIdentifier qb.dbType col).2 = none)
    (hescId : (V2.EscapeIdentifier qb.dbType (str "id")).2 = none) :
    ((toUpperGo dir = str "ASC" ∨ toUpperGo dir = str "DESC") →
      ValidateDirection dir = toUpperGo dir) ∧
    (¬(toUpperGo dir = str "ASC" ∨ toUpperGo dir = str "DESC") →
      ValidateDirection dir = str "DESC") ∧
    (col ∈ al →
      V2.OrderBy col dir (some al) qb =
        { qb with orderBy :=
            (V2.EscapeIdentifier qb.dbType col).1 ++ str " " ++ ValidateDirection dir }) ∧
    (col ∉ al →
      V2.OrderBy col dir (some al) qb =
        { qb with orderBy :=
            (V2.EscapeIdentifier qb.dbType (str "id")).1 ++ str " " ++
              ValidateDirection dir }) ∧
    (V2.OrderBy col dir none qb =
        { qb with orderBy :=
            (V2.EscapeIdentifier qb.dbType col).1 ++ str " " ++ ValidateDirection dir }) ∧
    (V2.OrderBy (str "b") (str "asc") none (V2.OrderBy (str "a") (str "weird") none
        (V2.BuildSelect PostgreSQL (str "t") []))).orderBy = str "\"b\" ASC" := by
  refine ⟨?_, ?_, ?_, ?_, ?_, by decide⟩
  · intro h
    simp only [ValidateDirection]
    rw [if_pos h]
  · intro h
    simp only [ValidateDirection]
    rw [if_neg h]
  · intro hmem
    cases qb
    subst he
    simp only [V2.OrderBy]
    rw [if_pos hmem]
    rw [pair_eta_none hescCol]
  · intro hmem
    cases qb
    subst he
    simp only [V2.OrderBy]
    rw [if_neg hmem]
    rw [pair_eta_none hescId]
  · cases qb
    subst he
    simp only [V2.OrderBy]
    rw [pair_eta_none hescCol]

/-- Witness for C8: column `a` with allow-list `[a]` and direction `asc`
on an error-free PostgreSQL builder. -/
theorem c8_orderby_witness :
    ((toUpperGo (str "asc") = str "ASC" ∨ toUpperGo (str "asc") = str "DESC") →
      ValidateDirection (str "asc") = toUpperGo (str "asc")) ∧
    (¬(toUpperGo (str "asc") = str "ASC" ∨ toUpperGo (str "asc") = str "DESC") →
      ValidateDirection (str "asc") = str "DESC") ∧
    (str "a" ∈ [str "a"] →
      V2.OrderBy (str "a") (str "asc") (some [str "a"]) (V2.emptyQB PostgreSQL) =
        { V2.emptyQB PostgreSQL with orderBy := (V2.EscapeIdentifier (V2.emptyQB PostgreSQL).dbType (str "a")).1 ++ str " " ++ ValidateDirection (str "asc") }) ∧
    (str "a" ∉ [str "a"] →
      V2.OrderBy (str "a") (str "asc") (some [str "a"]) (V2.emptyQB PostgreSQL) =
        { V2.emptyQB PostgreSQL with orderBy := (V2.EscapeIdentifier (V2.emptyQB PostgreSQL).dbType (str "id")).1 ++ str " " ++ ValidateDirection (str "asc") }) ∧
    (V2.OrderBy (str "a") (str "asc") none (V2.emptyQB PostgreSQL) =
        { V2.emptyQB PostgreSQL with orderBy := (V2.EscapeIdentifier (V2.emptyQB PostgreSQL).dbType (str "a")).1 ++ str " " ++ ValidateDirection (str "asc") }) ∧
    (V2.OrderBy (str "b") (str "asc") none (V2.OrderBy (str "a") (str "weird") none
        (V2.BuildSelect PostgreSQL (str "t") []))).orderBy = str "\"b\" ASC" :=
  c8_orderby (V2.emptyQB PostgreSQL) (str "a") (str "asc") [str "a"]
    rfl (by decide) (by decide)

end Gqbd

namespace Gqbd

theorem buildSelect_args (qb : QueryBuilder) :
    (V2.buildSelect qb).2.args =
      qb.args ++ (if qb.limit > 0 then [Val.i qb.limit] else []) ++
        (if qb.offset > 0 then [Val.i qb.offset] else []) ∧
    (V2.buildSelect qb).2.limit = qb.limit ∧
    (V2.buildSelect qb).2.offset = qb.offset ∧
    (V2.buildSelect qb).2.err = qb.err ∧
    (V2.buildSelect qb).2.op = qb.op := by
  refine ⟨?_, rfl, rfl, rfl, rfl⟩
  show (if qb.offset > 0 then
      (if qb.limit > 0 then qb.args ++ [Val.i qb.limit] else qb.args) ++ [Val.i qb.offset]
    else (if qb.limit > 0 then qb.args ++ [Val.i qb.limit] else qb.args)) = _
  by_cases hl : qb.limit > 0 <;> by_cases ho : qb.offset > 0 <;>
    simp [hl, ho, List.append_assoc]

/-- C9: the SELECT assembler writes the LIMIT and OFFSET bind values into
the builder's own argument slice while rendering: after one `Build` the
builder's `args` has gained the limit (and offset) values, the returned
argument list is exactly that mutated slice, and a second `Build` on the
returned builder appends the same values again. -/
theorem c9_double_append (qb : QueryBuilder) (he : qb.err = none)
    (hop : qb.op = str "SELECT") :
    (V2.Build qb).2.args =
      qb.args ++ (if qb.limit > 0 then [Val.i qb.limit] else []) ++
        (if qb.offset > 0 then [Val.i qb.offset] else []) ∧
    (V2.Build (V2.Build qb).2).2.args =
      qb.args ++ (if qb.limit > 0 then [Val.i qb.limit] else []) ++
        (if qb.offset > 0 then [Val.i qb.offset] else []) ++
        (if qb.limit > 0 then [Val.i qb.limit] else []) ++
        (if qb.offset > 0 then [Val.i qb.offset] else []) ∧
    (V2.Build qb).1.2.1 = (V2.Build qb).2.args := by
  have he2 : (V2.buildSelect qb).2.err = none := he
  have hop2 : (V2.buildSelect qb).2.op = str "SELECT" := hop
  have hB1 := buildSelect_args qb
  have hB2 := buildSelect_args (V2.buildSelect qb).2
  rw [build_select_unfold he hop]
  rw [build_select_unfold he2 hop2]
  refine ⟨hB1.1, ?_, rfl⟩
  rw [hB2.1, hB1.2.1, hB1.2.2.1, hB1.1]

/-- Witness for C9: a PostgreSQL SELECT with limit 7 and offset 9 gains
`[7, 9]` once after the first `Build` and again after the second. -/
theorem c9_double_append_witness :
    (V2.Build (V2.Limit 7 (V2.Offset 9
        (V2.BuildSelect PostgreSQL (str "t") [str "a"])))).2.args =
      (V2.Limit 7 (V2.Offset 9 (V2.BuildSelect PostgreSQL (str "t") [str "a"]))).args ++
        (if (V2.Limit 7 (V2.Offset 9 (V2.BuildSelect PostgreSQL (str "t") [str "a"]))).limit > 0 then [Val.i (V2.Limit 7 (V2.Offset 9 (V2.BuildSelect PostgreSQL (str "t") [str "a"]))).limit] else []) ++
        (if (V2.Limit 7 (V2.Offset 9 (V2.BuildSelect PostgreSQL (str "t") [str "a"]))).offset > 0 then [Val.i (V2.Limit 7 (V2.Offset 9 (V2.BuildSelect PostgreSQL (str "t") [str "a"]))).offset] else []) ∧
    (V2.Build (V2.Build (V2.Limit 7 (V2.Offset 9
        (V2.BuildSelect PostgreSQL (str "t") [str "a"])))).2).2.args =
      (V2.Limit 7 (V2.Offset 9 (V2.BuildSelect PostgreSQL (str "t") [str "a"]))).args ++
        (if (V2.Limit 7 (V2.Offset 9 (V2.BuildSelect PostgreSQL (str "t") [str "a"]))).limit > 0 then [Val.i (V2.Limit 7 (V2.Offset 9 (V2.BuildSelect PostgreSQL (str "t") [str "a"]))).limit] else []) ++
        (if (V2.Limit 7 (V2.Offset 9 (V2.BuildSelect PostgreSQL (str "t") [str "a"]))).offset > 0 then [Val.i (V2.Limit 7 (V2.Offset 9 (V2.BuildSelect PostgreSQL (str "t") [str "a"]))).offset] else []) ++
        (if (V2.Limit 7 (V2.Offset 9 (V2.BuildSelect PostgreSQL (str "t") [str "a"]))).limit > 0 then [Val.i (V2.Limit 7 (V2.Offset 9 (V2.BuildSelect PostgreSQL (str "t") [str "a"]))).limit] else []) ++
        (if (V2.Limit 7 (V2.Offset 9 (V2.BuildSelect PostgreSQL (str "t") [str "a"]))).offset > 0 then [Val.i (V2.Limit 7 (V2.Offset 9 (V2.BuildSelect PostgreSQL (str "t") [str "a"]))).offset] else []) ∧
    (V2.Build (V2.Limit 7 (V2.Offset 9
        (V2.BuildSelect PostgreSQL (str "t") [str "a"])))).1.2.1 =
      (V2.Build (V2.Limit 7 (V2.Offset 9
        (V2.BuildSelect PostgreSQL (str "t") [str "a"])))).2.args :=
  c9_double_append (V2.Limit 7 (V2.Offset 9
    (V2.BuildSelect PostgreSQL (str "t") [str "a"]))) (by decide) (by decide)

end Gqbd

namespace Gqbd

theorem singlePH_noComma (db : Str) (k : Nat) : noComma (singlePH db k) = true := by
  by_cases h : db = PostgreSQL
  · rw [singlePH, if_pos h]
    simp only [noComma, List.all_cons, Bool.and_eq_true]
    exact ⟨by decide, natDigits_noComma k⟩
  · rw [singlePH, if_neg h]
    decide

theorem splitCS_genPH (db : Str) (k : Nat) :
    splitCommaSpace (GeneratePlaceholders db k 2) =
      [singlePH db k, singlePH db (k + 1)] := by
  rw [genPH_parts, splitCS_sep (singlePH_noComma db k),
    splitCS_noComma (singlePH_noComma db (k + 1))]

/-- C10: on the gqbd.go:232-250 variant, for every builder with no stored
error and a column that escapes without error, `WhereBetween`'s
failed-to-generate-placeholders branch is unreachable: the two-marker
placeholder string always splits into exactly two pieces, so the call
appends exactly one `col BETWEEN p1 AND p2` condition fragment and
exactly the two bound values, start before stop, and the stored error
stays `none`. -/
theorem c10_wherebetween (qb : QueryBuilder) (col : Str) (a b : Val)
    (he : qb.err = none)
    (hesc : (V1.EscapeIdentifier qb.dbType col).2 = none) :
    V1.WhereBetween col a b qb =
      { qb with
        conditions := qb.conditions ++
          [(V1.EscapeIdentifier qb.dbType col).1 ++ str " BETWEEN " ++
            singlePH qb.dbType (qb.args.length + 1) ++ str " AND " ++
            singlePH qb.dbType (qb.args.length + 1 + 1)],
        args := qb.args ++ [a, b] } ∧
    (V1.WhereBetween col a b qb).err = none := by
  have heq : V1.WhereBetween col a b qb =
      { qb with
        conditions := qb.conditions ++
          [(V1.EscapeIdentifier qb.dbType col).1 ++ str " BETWEEN " ++
            singlePH qb.dbType (qb.args.length + 1) ++ str " AND " ++
            singlePH qb.dbType (qb.args.length + 1 + 1)],
        args := qb.args ++ [a, b] } := by
    cases qb
    subst he
    simp only [V1.WhereBetween]
    rw [pair_eta_none hesc]
    rw [splitCS_genPH]
  refine ⟨heq, ?_⟩
  rw [heq]
  exact he

/-- Witness for C10: `WhereBetween("c", 1, 2)` on a fresh error-free
PostgreSQL builder appends `"c" BETWEEN $1 AND $2` and binds `[1, 2]`. -/
theorem c10_wherebetween_witness :
    V1.WhereBetween (str "c") (Val.i 1) (Val.i 2) (V2.emptyQB PostgreSQL) =
      { V2.emptyQB PostgreSQL with
        conditions := (V2.emptyQB PostgreSQL).conditions ++
          [(V1.EscapeIdentifier (V2.emptyQB PostgreSQL).dbType (str "c")).1 ++
            str " BETWEEN " ++
            singlePH (V2.emptyQB PostgreSQL).dbType
              ((V2.emptyQB PostgreSQL).args.length + 1) ++ str " AND " ++
            singlePH (V2.emptyQB PostgreSQL).dbType
              ((V2.emptyQB PostgreSQL).args.length + 1 + 1)],
        args := (V2.emptyQB PostgreSQL).args ++ [Val.i 1, Val.i 2] } ∧
    (V1.WhereBetween (str "c") (Val.i 1) (Val.i 2) (V2.emptyQB PostgreSQL)).err =
      none :=
  c10_wherebetween (V2.emptyQB PostgreSQL) (str "c") (Val.i 1) (Val.i 2)
    rfl (by decide)

end Gqbd

/-! ### Embedding fidelity: the repository's own test expectations

These mirror concrete cases of `mariadb_test.go` / `postgre_test.go` and
fix the V2 shift/translation behaviour on closed inputs. -/

section Sanity
open Gqbd

theorem sanity_pg_select_render :
    (V2.Build (V2.Limit 10 (V2.Offset 3 (V2.OrderBy (str "new_seq") (str "DESC") none
      (V2.Where (str "new_name = ?") [Val.s (str "testName")]
        (V2.Where (str "new_id = ?") [Val.s (str "abc123")]
          (V2.BuildSelect PostgreSQL (str "new_table")
            [str "new_seq", str "new_id", str "new_name"]))))))).1 =
    (str "SELECT \"new_seq\", \"new_id\", \"new_name\" FROM \"new_table\" WHERE new_id = $1 AND new_name = $2 ORDER BY \"new_seq\" DESC LIMIT $3 OFFSET $4",
     [Val.s (str "abc123"), Val.s (str "testName"), Val.i 10, Val.i 3], none) := by
  decide

theorem sanity_mariadb_select_render :
    (V2.Build (V2.Limit 10 (V2.Offset 3 (V2.OrderBy (str "new_seq") (str "DESC") none
      (V2.Where (str "new_name = ?") [Val.s (str "testName")]
        (V2.Where (str "new_id = ?") [Val.s (str "abc123")]
          (V2.BuildSelect MariaDB (str "new_table")
            [str "new_seq", str "new_id", str "new_name"]))))))).1 =
    (str "SELECT `new_seq`, `new_id`, `new_name` FROM `new_table` WHERE new_id = ? AND new_name = ? ORDER BY `new_seq` DESC LIMIT ? OFFSET ?",
     [Val.s (str "abc123"), Val.s (str "testName"), Val.i 10, Val.i 3], none) := by
  decide

theorem sanity_scanner_tokens :
    placeholderToks (str "a = $1 AND b = $13 OR c = ? x$ $") =
      [PTok.d 1, PTok.d 13, PTok.q] := by
  decide

theorem sanity_pg_update_args :
    (V2.buildUpdate (V2.Set (some [(str "a", Val.i 1), (str "b", Val.i 2)])
      (V2.Where (str "c = ?") [Val.i 3] (V2.BuildUpdate PostgreSQL (str "t"))))).2.1 =
    [Val.i 1, Val.i 2, Val.i 3] := by
  decide

end Sanity
